import Mathlib

/-!
Shallow embedding of the dosing-control / sensor-filtering core of the
cja hydroponics repository, together with theorems settling the frozen
claims C1-C10 about its specification.

Conventions of the embedding:
  * Python floats are modelled as exact rationals (ℚ); float literals such
    as 1.4826 or 1e-9 become the corresponding rationals.
  * Python None / value is modelled as Option ℚ.
  * Side-effecting code (GPIO writes, file locks, serial exchanges, log
    lines) is modelled as functions that return an explicit list of events.
  * Wall-clock waits are discretized: a timed polling wait of the source
    becomes a number of poll steps, and the stdin switch is a stream
    ℕ → Option Bool giving the value read at each poll (none = no input,
    some false = the value that makes the script stop).
Each definition carries a comment naming the source function it embeds.
-/

set_option allowUnsafeReducibility true

attribute [semireducible] Rat.add Rat.sub Rat.mul Rat.inv

namespace Cja

/-- Python list slicing l[-n:] : the last n elements of a list (the whole
list when it is shorter than n). -/
def lastN (n : ℕ) (l : List ℚ) : List ℚ :=
  l.drop (l.length - n)

/-- Stable ascending insertion of one element, the building block of the
model of Python sorted(). -/
def insertSorted (x : ℚ) : List ℚ → List ℚ
  | [] => [x]
  | y :: t => if y ≤ x then y :: insertSorted x t else x :: y :: t

/-- Python sorted(values): ascending stable sort, modelled structurally as
an insertion sort. -/
def pySorted (l : List ℚ) : List ℚ :=
  l.foldr insertSorted []

/-- Embeds median(values) of src/sensors/Dist_2_EC_pH.py (identical in
src/controllers/Dist_2_EC_pH_auto_control.py): sort ascending, take the
middle element for odd length and the mean of the two middle elements for
even length; None on the empty list. -/
def median (values : List ℚ) : Option ℚ :=
  let s := pySorted values
  let n := s.length
  if n = 0 then none
  else if n % 2 = 1 then some (s.getD (n / 2) 0)
  else some ((1/2 : ℚ) * (s.getD (n / 2 - 1) 0 + s.getD (n / 2) 0))

/-- Embeds mad(values, med) of src/sensors/Dist_2_EC_pH.py: the median of
the absolute deviations from med. -/
def mad (values : List ℚ) (med : ℚ) : Option ℚ :=
  median (values.map (fun v => |v - med|))

/-- Floor of a rational as an integer (kernel-computable form of the
floor used by the rounding model). -/
def ratFloor (q : ℚ) : ℤ :=
  Int.fdiv q.num q.den

/-- Python round-half-to-even of a rational to an integer (the tie rule of
round() on exact values). -/
def round_half_even (q : ℚ) : ℤ :=
  let f := ratFloor q
  let r := q - f
  if r < 1/2 then f
  else if 1/2 < r then f + 1
  else if f % 2 = 0 then f else f + 1

/-- Python round(x, 2) over the exact-rational model. -/
def round2 (q : ℚ) : ℚ :=
  (round_half_even (q * 100) : ℚ) / 100

end Cja

namespace Cja.Sensor2

/-! Embedding of the live sensor pipeline src/sensors/Dist_2_EC_pH.py. -/

def VALID_EC_MIN : ℚ := 0
def VALID_EC_MAX : ℚ := 5
def VALID_PH_MIN : ℚ := 2
def VALID_PH_MAX : ℚ := 10
def VALID_TP_MIN : ℚ := 10
def VALID_TP_MAX : ℚ := 50

def HAMPEL_WIN : ℕ := 15
def HAMPEL_K : ℚ := 3
def CONFIRM_N : ℕ := 3
def CONFIRM_M : ℕ := 2
def EC_BAND_ABS : ℚ := 20/100
def PH_BAND_ABS : ℚ := 50/100
def TP_BAND_ABS : ℚ := 2

/-- The float literal 1.4826 of hampel_accept. -/
def HAMPEL_SCALE : ℚ := 14826/10000

/-- The float literal 1e-9 of hampel_accept. -/
def HAMPEL_EPS : ℚ := 1/1000000000

/-- Embeds hampel_accept(candidate, history, k) of src/sensors/Dist_2_EC_pH.py
(True = accept).  The is_finite_number guard of the source is always true in
the exact-rational model. -/
def hampel_accept (candidate : ℚ) (history : List ℚ) (k : ℚ) : Bool :=
  let c := candidate
  if history.length < max 5 (HAMPEL_WIN / 3) then true
  else
    let window := lastN HAMPEL_WIN history
    match median window with
    | none => true
    | some m =>
      match mad window m with
      | none => true
      | some mad_v =>
        let sigma := HAMPEL_SCALE * mad_v
        if sigma = 0 then decide (|c - m| < HAMPEL_EPS)
        else decide (|c - m| ≤ k * sigma)

/-- Embeds within_band(a, b, band_abs) of src/sensors/Dist_2_EC_pH.py for
the non-None call sites (confirmation_update guards rep is None first). -/
def within_band (a b band_abs : ℚ) : Bool :=
  decide (|a - b| ≤ band_abs)

/-- Embeds confirmation_update(rep, pending_list, candidate, band_abs, n, m)
of src/sensors/Dist_2_EC_pH.py.  Returns (new rep, new pending, tag). -/
def confirmation_update (rep : Option ℚ) (pending_list : List ℚ)
    (candidate band_abs : ℚ) (n m : ℕ) : Option ℚ × List ℚ × String :=
  let c := candidate
  match rep with
  | none => (some c, [], "accepted_first")
  | some r =>
    if within_band c r band_abs then (some c, [], "accepted_near_rep")
    else
      let pending := lastN n (pending_list ++ [c])
      match median pending with
      | none => (some r, pending, "pending")
      | some pm =>
        let close := pending.filter (fun x => decide (|x - pm| ≤ band_abs))
        if m ≤ close.length then (median close, [], "promoted_confirmed")
        else (some r, pending, "pending")

/-- Per-channel FilterState of the main() loop of src/sensors/Dist_2_EC_pH.py:
hist_*, rep_*, pend_* for one channel. -/
structure Ch where
  hist : List ℚ
  rep : Option ℚ
  pend : List ℚ
deriving DecidableEq, Repr

/-- One channel block of main() of src/sensors/Dist_2_EC_pH.py, factored
over the channel constants (lo, hi) for valid_* and band for the
confirmation call: skip when the parsed value is missing or out of range;
on Hampel acceptance append to the history (trimmed to HAMPEL_WIN * 3) and
run confirmation_update; on rejection leave the channel state unchanged. -/
def channel_update (lo hi band : ℚ) (ch : Ch) (x : Option ℚ) : Ch :=
  match x with
  | none => ch
  | some v =>
    if lo ≤ v ∧ v ≤ hi then
      if hampel_accept v ch.hist HAMPEL_K then
        let hist := lastN (HAMPEL_WIN * 3) (ch.hist ++ [v])
        let ru := confirmation_update ch.rep ch.pend v band CONFIRM_N CONFIRM_M
        { hist := hist, rep := ru.1, pend := ru.2.1 }
      else ch
    else ch

/-- State of one poll iteration of main() of src/sensors/Dist_2_EC_pH.py:
the three channels plus the last_err marker. -/
structure SState where
  ec : Ch
  ph : Ch
  tp : Ch
  lastErr : Option String
deriving DecidableEq, Repr

/-- Embeds the per-poll update block of main() of src/sensors/Dist_2_EC_pH.py
for a successful request (err is None), translated statement by statement:
the EC block, the pH block with its invalid_ph marker, the Temp block, and
the final clearing of last_err when any channel updated. -/
def main_step (s : SState) (pec pph ptp : Option ℚ) : SState :=
  -- EC block
  let accEc : Bool :=
    match pec with
    | none => false
    | some v => decide (VALID_EC_MIN ≤ v ∧ v ≤ VALID_EC_MAX) &&
        hampel_accept v s.ec.hist HAMPEL_K
  let validEc : Bool :=
    match pec with
    | none => false
    | some v => decide (VALID_EC_MIN ≤ v ∧ v ≤ VALID_EC_MAX)
  let ec1 : Ch :=
    match pec with
    | none => s.ec
    | some v =>
      if VALID_EC_MIN ≤ v ∧ v ≤ VALID_EC_MAX then
        if hampel_accept v s.ec.hist HAMPEL_K then
          { hist := lastN (HAMPEL_WIN * 3) (s.ec.hist ++ [v]),
            rep := (confirmation_update s.ec.rep s.ec.pend v EC_BAND_ABS CONFIRM_N CONFIRM_M).1,
            pend := (confirmation_update s.ec.rep s.ec.pend v EC_BAND_ABS CONFIRM_N CONFIRM_M).2.1 }
        else s.ec
      else s.ec
  let err1 : Option String :=
    if validEc && !accEc then some "hampel_outlier_ec" else s.lastErr
  -- pH block
  let accPh : Bool :=
    match pph with
    | none => false
    | some v => decide (VALID_PH_MIN ≤ v ∧ v ≤ VALID_PH_MAX) &&
        hampel_accept v s.ph.hist HAMPEL_K
  let validPh : Bool :=
    match pph with
    | none => false
    | some v => decide (VALID_PH_MIN ≤ v ∧ v ≤ VALID_PH_MAX)
  let ph1 : Ch :=
    match pph with
    | none => s.ph
    | some v =>
      if VALID_PH_MIN ≤ v ∧ v ≤ VALID_PH_MAX then
        if hampel_accept v s.ph.hist HAMPEL_K then
          { hist := lastN (HAMPEL_WIN * 3) (s.ph.hist ++ [v]),
            rep := (confirmation_update s.ph.rep s.ph.pend v PH_BAND_ABS CONFIRM_N CONFIRM_M).1,
            pend := (confirmation_update s.ph.rep s.ph.pend v PH_BAND_ABS CONFIRM_N CONFIRM_M).2.1 }
        else s.ph
      else s.ph
  let err2 : Option String :=
    if validPh && !accPh then some "hampel_outlier_ph"
    else if !validPh then
      -- else-branch of the pH validity test: is_finite_number is always
      -- true in the rational model, so the marker fires for a present
      -- nonzero out-of-range pH
      match pph with
      | some v => if v ≠ 0 then some "invalid_ph" else err1
      | none => err1
    else err1
  -- Temp block
  let accTp : Bool :=
    match ptp with
    | none => false
    | some v => decide (VALID_TP_MIN ≤ v ∧ v ≤ VALID_TP_MAX) &&
        hampel_accept v s.tp.hist HAMPEL_K
  let validTp : Bool :=
    match ptp with
    | none => false
    | some v => decide (VALID_TP_MIN ≤ v ∧ v ≤ VALID_TP_MAX)
  let tp1 : Ch :=
    match ptp with
    | none => s.tp
    | some v =>
      if VALID_TP_MIN ≤ v ∧ v ≤ VALID_TP_MAX then
        if hampel_accept v s.tp.hist HAMPEL_K then
          { hist := lastN (HAMPEL_WIN * 3) (s.tp.hist ++ [v]),
            rep := (confirmation_update s.tp.rep s.tp.pend v TP_BAND_ABS CONFIRM_N CONFIRM_M).1,
            pend := (confirmation_update s.tp.rep s.tp.pend v TP_BAND_ABS CONFIRM_N CONFIRM_M).2.1 }
        else s.tp
      else s.tp
  let err3 : Option String :=
    if validTp && !accTp then some "hampel_outlier_tp" else err2
  let updated_any : Bool := accEc || accPh || accTp
  { ec := ec1, ph := ph1, tp := tp1,
    lastErr := if updated_any then none else err3 }

end Cja.Sensor2

namespace Cja.OldV

/-! Embedding of the retired pipeline src/old_version/Dist_2_EC_pH_20260105.py
(the live, uncommented half of that file). -/

def HAMPEL_WINDOW : ℕ := 9
def HAMPEL_K : ℚ := 3
def CONFIRM_N : ℕ := 3
def CONFIRM_M : ℕ := 2
def EC_MIN : ℚ := 0
def EC_MAX : ℚ := 5
def PH_MIN : ℚ := 4
def PH_MAX : ℚ := 19/2
def TP_MIN : ℚ := 5
def TP_MAX : ℚ := 40
def EC_EPS : ℚ := 10/100
def PH_EPS : ℚ := 20/100
def TP_EPS : ℚ := 1

/-- Embeds is_valid_physical(ec, ph, tp): False when any of the three
values is missing or outside its physical band; the whole triple is
accepted or rejected together. -/
def is_valid_physical (ec ph tp : Option ℚ) : Bool :=
  match ec, ph, tp with
  | some e, some p, some t =>
    decide (EC_MIN ≤ e ∧ e ≤ EC_MAX) &&
    decide (PH_MIN ≤ p ∧ p ≤ PH_MAX) &&
    decide (TP_MIN ≤ t ∧ t ≤ TP_MAX)
  | _, _, _ => false

/-- Embeds hampel_is_outlier(x, window_values, k) (True = outlier): with
fewer than 3 window values, or when the MAD is zero, nothing is an
outlier; otherwise compare |x - med| against k * 1.4826 * mad. -/
def hampel_is_outlier (x : ℚ) (window_values : List ℚ) (k : ℚ) : Bool :=
  if window_values.length < 3 then false
  else
    let vals := pySorted window_values
    let med := vals.getD (vals.length / 2) 0
    let abs_devs := pySorted (vals.map (fun v => |v - med|))
    let madv := abs_devs.getD (abs_devs.length / 2) 0
    if madv = 0 then false
    else decide (|x - med| > k * (14826/10000 : ℚ) * madv)

/-- Embeds within_eps(a, b, eps) for the non-None call sites of the
confirmation block. -/
def within_eps (a b eps : ℚ) : Bool :=
  decide (|a - b| ≤ eps)

/-- Appending to a deque with maxlen n. -/
def push (n : ℕ) (l : List ℚ) (x : ℚ) : List ℚ :=
  lastN n (l ++ [x])

/-- State of main() of the old version: representatives, Hampel windows
(deques of maxlen HAMPEL_WINDOW) and candidate buffers (deques of maxlen
CONFIRM_N) for the three channels. -/
structure OState where
  rep_ec : Option ℚ
  rep_ph : Option ℚ
  rep_tp : Option ℚ
  win_ec : List ℚ
  win_ph : List ℚ
  win_tp : List ℚ
  cand_ec : List ℚ
  cand_ph : List ℚ
  cand_tp : List ℚ
deriving DecidableEq, Repr

/-- The empty start state of main(). -/
def init : OState :=
  { rep_ec := none, rep_ph := none, rep_tp := none,
    win_ec := [], win_ph := [], win_tp := [],
    cand_ec := [], cand_ph := [], cand_tp := [] }

/-- Embeds one successful-request iteration of main() of the old version:
physical validation of the whole triple, rounding, the per-channel Hampel
check, and either the all-channel 2-of-3 confirmation path or the
immediate acceptance path.  An invalid triple leaves the state unchanged
(the continue statement). -/
def old_step (s : OState) (ec ph tp : Option ℚ) : OState :=
  if is_valid_physical ec ph tp then
    match ec, ph, tp with
    | some e0, some p0, some t0 =>
      let e := round2 e0
      let p := round2 p0
      let t := round2 t0
      let ec_out := hampel_is_outlier e s.win_ec HAMPEL_K
      let ph_out := hampel_is_outlier p s.win_ph HAMPEL_K
      let tp_out := hampel_is_outlier t s.win_tp HAMPEL_K
      if ec_out || ph_out || tp_out then
        let ce := push CONFIRM_N s.cand_ec e
        let cp := push CONFIRM_N s.cand_ph p
        let ct := push CONFIRM_N s.cand_tp t
        let base_ec := (ce.getLast?).getD 0
        let base_ph := (cp.getLast?).getD 0
        let base_tp := (ct.getLast?).getD 0
        let ok_ec := ce.countP (fun v => within_eps v base_ec EC_EPS)
        let ok_ph := cp.countP (fun v => within_eps v base_ph PH_EPS)
        let ok_tp := ct.countP (fun v => within_eps v base_tp TP_EPS)
        if CONFIRM_M ≤ ok_ec ∧ CONFIRM_M ≤ ok_ph ∧ CONFIRM_M ≤ ok_tp then
          { rep_ec := some base_ec, rep_ph := some base_ph, rep_tp := some base_tp,
            win_ec := push HAMPEL_WINDOW s.win_ec base_ec,
            win_ph := push HAMPEL_WINDOW s.win_ph base_ph,
            win_tp := push HAMPEL_WINDOW s.win_tp base_tp,
            cand_ec := [], cand_ph := [], cand_tp := [] }
        else
          { s with cand_ec := ce, cand_ph := cp, cand_tp := ct }
      else
        { rep_ec := some e, rep_ph := some p, rep_tp := some t,
          win_ec := push HAMPEL_WINDOW s.win_ec e,
          win_ph := push HAMPEL_WINDOW s.win_ph p,
          win_tp := push HAMPEL_WINDOW s.win_tp t,
          cand_ec := [], cand_ph := [], cand_tp := [] }
    | _, _, _ => s
  else s

end Cja.OldV

namespace Cja.Parsing

/-! Embedding of the robust number parsing shared verbatim by
src/sensors/Dist_2_EC_pH.py and src/controllers/Dist_2_EC_pH_auto_control.py
(fix_slash_number, to_float_maybe).  Strings are handled at the character
level; ASCII digits model Python str.isdigit on the frames at hand. -/

/-- Whitespace characters stripped by Python str.strip. -/
def isWsChar (c : Char) : Bool :=
  c = ' ' || c = '\t' || c = '\n' || c = '\r' || c = '\x0b' || c = '\x0c'

/-- Python str.strip(): drop whitespace from both ends. -/
def pyStrip (cs : List Char) : List Char :=
  ((cs.dropWhile isWsChar).reverse.dropWhile isWsChar).reverse

/-- Python str.isdigit for ASCII strings: nonempty and all digits. -/
def pyIsDigitL (l : List Char) : Bool :=
  !l.isEmpty && l.all Char.isDigit

/-- Split a character list on a separator character, Python str.split. -/
def splitOnChar (sep : Char) : List Char → List (List Char)
  | [] => [[]]
  | c :: t =>
    match splitOnChar sep t with
    | [] => if c = sep then [[], []] else [[c]]
    | h :: r => if c = sep then [] :: h :: r else (c :: h) :: r

/-- Embeds fix_slash_number(s): strip, and when the string is exactly
digits/digits replace the slash by a decimal point. -/
def fix_slash_number (s : String) : String :=
  let cs := pyStrip s.data
  if cs.contains '/' then
    match splitOnChar '/' cs with
    | [a, b] =>
      if pyIsDigitL a && pyIsDigitL b then String.mk (a ++ '.' :: b)
      else String.mk cs
    | _ => String.mk cs
  else String.mk cs

/-- The replace(" ", "") step of to_float_maybe. -/
def stripSpaces (cs : List Char) : List Char :=
  cs.filter (fun c => c ≠ ' ')

/-- The re.sub(r"[^0-9\.\-]", "", ...) step of to_float_maybe. -/
def keepNumChars (cs : List Char) : List Char :=
  cs.filter (fun c => c.isDigit || c = '.' || c = '-')

/-- Numeric value of a digit string. -/
def digitsToNat (l : List Char) : ℕ :=
  l.foldl (fun a c => a * 10 + (c.toNat - 48)) 0

/-- Python float() on a cleaned string over the alphabet digits, dot and
minus: an optional leading minus, digits with at most one dot and at least
one digit; everything else fails.  Finiteness is automatic over ℚ. -/
def parsePyFloat (cs : List Char) : Option ℚ :=
  let neg : Bool := cs.head? = some '-'
  let cs1 := if neg then cs.tail else cs
  let d1 := cs1.takeWhile Char.isDigit
  let r1 := cs1.dropWhile Char.isDigit
  let v : Option ℚ :=
    match r1 with
    | [] => if d1.isEmpty then none else some (digitsToNat d1)
    | c :: r2 =>
      if c = '.' then
        let d2 := r2.takeWhile Char.isDigit
        let r3 := r2.dropWhile Char.isDigit
        if r3.isEmpty && !(d1.isEmpty && d2.isEmpty) then
          some ((digitsToNat d1 : ℚ) + (digitsToNat d2 : ℚ) / (10 : ℚ) ^ d2.length)
        else none
      else none
  match v with
  | none => none
  | some q => some (if neg then -q else q)

/-- Embeds to_float_maybe(s): normalize slash numbers, drop spaces and
non-numeric characters, then convert; None instead of an exception on
anything unparsable. -/
def to_float_maybe (s : String) : Option ℚ :=
  let s2 := fix_slash_number s
  let s3 := keepNumChars (stripSpaces s2.data)
  if s3.isEmpty then none else parsePyFloat s3

end Cja.Parsing

namespace Cja.Ctrl2

/-! Embedding of the Dist_2 dosing controller
src/controllers/Dist_2_EC_pH_auto_control.py. -/

def ID_PH : ℕ := 16
def ID_TEMP : ℕ := 29
def ID_EC : ℕ := 30

def SCHEDULE_MODE : String := "4hour"
def EC_MIN : ℚ := 11/10
def PH_MAX : ℚ := 61/10
def DOSE_ML : ℚ := 50
def PUMP_ML_PER_SEC : ℚ := 165/100
def TOPIC_AB : String := "GPIO22"
def TOPIC_ACID : String := "GPIO23"
def RETRY_ATTEMPTS : ℕ := 3
def READ_N : ℕ := 3
def VALID_EC_MIN : ℚ := 0
def VALID_EC_MAX : ℚ := 3
def VALID_PH_MIN : ℚ := 350/100
def VALID_PH_MAX : ℚ := 10
def VALID_TP_MIN : ℚ := 10
def VALID_TP_MAX : ℚ := 50

/-- Wall-clock instant as datetime.datetime exposes it to slot_stamp. -/
structure PyDateTime where
  year : ℕ
  month : ℕ
  day : ℕ
  hour : ℕ
  minute : ℕ
  second : ℕ
  micro : ℕ
deriving DecidableEq, Repr

/-- dt.replace(second=0, microsecond=0). -/
def replace0 (dt : PyDateTime) : PyDateTime :=
  { dt with second := 0, micro := 0 }

/-- Zero-padded two-digit field of strftime. -/
def pad2 (n : ℕ) : String :=
  if n < 10 then "0" ++ toString n else toString n

/-- Zero-padded four-digit year of strftime %Y. -/
def pad4 (n : ℕ) : String :=
  if n < 10 then "000" ++ toString n
  else if n < 100 then "00" ++ toString n
  else if n < 1000 then "0" ++ toString n
  else toString n

/-- strftime("%Y%m%d") of a PyDateTime. -/
def fmtYMD (dt : PyDateTime) : String :=
  pad4 dt.year ++ pad2 dt.month ++ pad2 dt.day

/-- Embeds slot_stamp(dt) of src/controllers/Dist_2_EC_pH_auto_control.py,
parameterized by SCHEDULE_MODE exactly as the source branches on it:
30-minute, 1-hour, or (default) 4-hour slots. -/
def slot_stamp (mode : String) (dt : PyDateTime) : String :=
  let dt0 := replace0 dt
  if mode = "30min" then
    let mm := if dt0.minute < 30 then 0 else 30
    fmtYMD dt0 ++ pad2 dt0.hour ++ pad2 mm
  else if mode = "1hour" then
    fmtYMD dt0 ++ pad2 dt0.hour
  else
    let hh := (dt0.hour / 4) * 4
    fmtYMD dt0 ++ pad2 hh

/-- Two instants lie in the same cadence interval: equal floor of the
wall-clock time to the cadence of the given mode. -/
def same_slot_interval (mode : String) (a b : PyDateTime) : Prop :=
  a.year = b.year ∧ a.month = b.month ∧ a.day = b.day ∧
  (if mode = "30min" then a.hour = b.hour ∧ a.minute / 30 = b.minute / 30
   else if mode = "1hour" then a.hour = b.hour
   else a.hour / 4 = b.hour / 4)

/-- Result of one control cycle as main_loop sees it. -/
inductive CycleRes where
  | ok
  | fail
  | stop
deriving DecidableEq, Repr

/-- One poll tick of main_loop: the stdin switch value read at the top of
the iteration, the slot key of now, and the result the control cycle
would produce if it ran on this tick. -/
structure Tick where
  sw : Option Bool
  slot : String
  res : CycleRes
deriving Repr

/-- Loop variables of main_loop, plus the list of slot keys for which a
control cycle was actually executed (the observable of the claim). -/
structure LoopState where
  lastRun : Option String
  stopped : Bool
  executed : List String
deriving Repr

/-- Embeds one iteration of the while-loop of main_loop() of
src/controllers/Dist_2_EC_pH_auto_control.py: a switch-off breaks the
loop; otherwise when cur_slot differs from last_run_slot the cycle runs,
a STOP result breaks before the assignment, and any other result sets
last_run_slot to cur_slot.  The broken loop is modelled by the stopped
flag absorbing all later ticks. -/
def loop_step (st : LoopState) (t : Tick) : LoopState :=
  if st.stopped then st
  else if t.sw = some false then { st with stopped := true }
  else if some t.slot ≠ st.lastRun then
    match t.res with
    | .stop => { st with executed := st.executed ++ [t.slot], stopped := true }
    | _ => { st with executed := st.executed ++ [t.slot], lastRun := some t.slot }
  else st

/-- main_loop() from its initial state last_run_slot = None. -/
def run_loop (ts : List Tick) : LoopState :=
  ts.foldl loop_step { lastRun := none, stopped := false, executed := [] }

/-- Slot keys of a tick trace produced by a monotone wall clock: equal
keys occur in one contiguous block (whatever stands between two
occurrences of a key is that same key). -/
def BlockContiguous (l : List String) : Prop :=
  ∀ pre mid post (a : String), l = pre ++ a :: (mid ++ a :: post) →
    ∀ c ∈ mid, c = a

end Cja.Ctrl2

namespace Cja.Ctrl2

/-! Character-level embedding of the regex scanning of parse_ec_ph_tp /
extract_for_id of src/controllers/Dist_2_EC_pH_auto_control.py. -/

/-- One optional double quote, the regex piece quote-questionmark. -/
def optQuote (cs : List Char) : List Char :=
  match cs with
  | '"' :: t => t
  | _ => cs

/-- Case-insensitive literal match returning the rest of the input. -/
def matchCI : List Char → List Char → Option (List Char)
  | [], cs => some cs
  | _ :: _, [] => none
  | l :: lt, c :: ct => if c.toLower = l.toLower then matchCI lt ct else none

/-- Greedy whitespace-star of the regexes. -/
def skipWsL (cs : List Char) : List Char :=
  cs.dropWhile Cja.Parsing.isWsChar

/-- Match of the first regex of extract_for_id at one position: optional
quote, "id", optional quote, whitespace, a colon or equals sign,
whitespace, optional quote, then the digits of the target id. -/
def idPatAt (target : List Char) (cs : List Char) : Bool :=
  let cs1 := optQuote cs
  match matchCI ['i', 'd'] cs1 with
  | none => false
  | some cs2 =>
    let cs3 := optQuote cs2
    let cs4 := skipWsL cs3
    match cs4 with
    | [] => false
    | c :: cs5 =>
      if c = ':' || c = '=' then
        let cs6 := skipWsL cs5
        let cs7 := optQuote cs6
        target.isPrefixOf cs7
      else false

/-- Leftmost re.search: the first suffix of the text where the predicate
matches (the match start position of the regex engine). -/
def findSuffix (p : List Char → Bool) : List Char → Option (List Char)
  | [] => if p [] then some [] else none
  | c :: t => if p (c :: t) then some (c :: t) else findSuffix p t

/-- Leftmost re.search for a token-producing pattern. -/
def findMapSuffix (f : List Char → Option (List Char)) :
    List Char → Option (List Char)
  | [] => f []
  | c :: t =>
    match f (c :: t) with
    | some r => some r
    | none => findMapSuffix f t

/-- The numeric-token group [0-9]+(?:[./][0-9]+)? at one position: greedy
digits, then optionally one dot or slash followed by at least one digit. -/
def numTokenAt (cs : List Char) : Option (List Char) :=
  let d1 := cs.takeWhile Char.isDigit
  if d1.isEmpty then none
  else
    match cs.dropWhile Char.isDigit with
    | c :: t =>
      if c = '.' || c = '/' then
        let d2 := t.takeWhile Char.isDigit
        if d2.isEmpty then some d1 else some (d1 ++ c :: d2)
      else some d1
    | [] => some d1

/-- Match of the value regex of extract_for_id at one position: optional
quote, "value", optional quote, whitespace, colon or equals, whitespace,
optional quote, whitespace, then the numeric token group. -/
def valuePatAt (cs : List Char) : Option (List Char) :=
  let cs1 := optQuote cs
  match matchCI ['v', 'a', 'l', 'u', 'e'] cs1 with
  | none => none
  | some cs2 =>
    let cs3 := optQuote cs2
    let cs4 := skipWsL cs3
    match cs4 with
    | [] => none
    | c :: cs5 =>
      if c = ':' || c = '=' then
        let cs6 := skipWsL cs5
        let cs7 := optQuote cs6
        let cs8 := skipWsL cs7
        numTokenAt cs8
      else none

/-- Embeds extract_for_id(t, target_id) of parse_ec_ph_tp: locate the id
pattern, cut a 260-character window at the match start, then extract the
value token (or, failing that, the first numeric token) and convert it
with to_float_maybe; None whenever any stage fails. -/
def extract_for_id (text : List Char) (target_id : ℕ) : Option ℚ :=
  match findSuffix (idPatAt (toString target_id).data) text with
  | none => none
  | some suffix =>
    let window := suffix.take 260
    match findMapSuffix valuePatAt window with
    | some tok => Cja.Parsing.to_float_maybe (String.mk tok)
    | none =>
      match findMapSuffix numTokenAt window with
      | some tok => Cja.Parsing.to_float_maybe (String.mk tok)
      | none => none

/-- Embeds parse_ec_ph_tp(text) of
src/controllers/Dist_2_EC_pH_auto_control.py: per-id extraction of pH,
temperature and EC, returned as (ec, ph, tp). -/
def parse_ec_ph_tp (text : List Char) : Option ℚ × Option ℚ × Option ℚ :=
  let ph := extract_for_id text ID_PH
  let tp := extract_for_id text ID_TEMP
  let ec := extract_for_id text ID_EC
  (ec, ph, tp)

end Cja.Ctrl2

namespace Cja

/-- Shared shape of the 50 ms abort-polling waits (wait_with_abort of
Dist_2 and the inner loop of run_pump of Dist_1): the wait is aborted
exactly when some poll within the discretized duration reads the stop
value. -/
def pollAborts (steps : ℕ) (rd : ℕ → Option Bool) : Bool :=
  (List.range steps).any (fun i => decide (rd i = some false))

end Cja

namespace Cja.Ctrl2

/-- Lock and transport events of one acquisition of
read_representative_3: the flock acquire, one serial exchange per retry
attempt of each read, and the flock release of the finally block. -/
inductive Ev where
  | acquire
  | exchange (read : ℕ) (attempt : ℕ)
  | release
deriving DecidableEq, Repr

/-- Outcome of one serial attempt inside request_once_locked: no bytes,
an exception, or a parsed triple (an all-None triple is the
value_missing_all case of the source). -/
inductive Att where
  | noData
  | exc
  | ok (ec ph tp : Option ℚ)
deriving Repr

/-- The condition under which one attempt of request_once_locked returns:
a parse with at least one present value. -/
def att_success (a : Att) : Option (Option ℚ × Option ℚ × Option ℚ) :=
  match a with
  | .ok ec ph tp => if ec = none ∧ ph = none ∧ tp = none then none else some (ec, ph, tp)
  | _ => none

/-- Embeds the retry loop of request_once_locked() for read number i:
up to RETRY_ATTEMPTS serial exchanges, stopping at the first attempt that
yields a usable parse; None after the attempt budget. -/
def request_go (i : ℕ) (att : ℕ → Att) :
    ℕ → ℕ → List Ev × Option (Option ℚ × Option ℚ × Option ℚ)
  | 0, _ => ([], none)
  | fuel + 1, j =>
    match att_success (att j) with
    | some r => ([.exchange i j], some r)
    | none =>
      let rest := request_go i att fuel (j + 1)
      (.exchange i j :: rest.1, rest.2)

/-- request_once_locked() for read number i. -/
def request_once_locked (i : ℕ) (att : ℕ → Att) :
    List Ev × Option (Option ℚ × Option ℚ × Option ℚ) :=
  request_go i att RETRY_ATTEMPTS 0

/-- Embeds valid_range(x, lo, hi): False for a missing value, the closed
range test otherwise. -/
def valid_range (x : Option ℚ) (lo hi : ℚ) : Bool :=
  match x with
  | none => false
  | some v => decide (lo ≤ v ∧ v ≤ hi)

/-- Result of read_representative_3. -/
inductive RStatus where
  | stop
  | fail
  | ok (ec : ℚ) (ph : Option ℚ) (tp : ℚ)
deriving DecidableEq, Repr

/-- The return statements after the read loop of read_representative_3:
FAIL on fewer than two valid EC or temperature samples, otherwise the
rounded medians (pH stays None when no valid pH sample arrived). -/
def finalize (ecs phs tps : List ℚ) : RStatus :=
  if ecs.length < 2 ∨ tps.length < 2 then .fail
  else
    .ok (round2 ((median ecs).getD 0))
      (if phs.isEmpty then none else some (round2 ((median phs).getD 0)))
      (round2 ((median tps).getD 0))

/-- Embeds the read loop of read_representative_3(): before each of the
READ_N reads the stdin switch is polled (False returns STOP), a
successful request contributes each of its channels to the per-channel
list exactly when that channel passes valid_range. -/
def rr3_go (sw : ℕ → Option Bool) (att : ℕ → ℕ → Att) :
    ℕ → ℕ → List ℚ × List ℚ × List ℚ → List Ev × RStatus
  | 0, _, acc => ([], finalize acc.1 acc.2.1 acc.2.2)
  | fuel + 1, i, (ecs, phs, tps) =>
    if sw i = some false then ([], .stop)
    else
      let rq := request_once_locked i (att i)
      let acc2 : List ℚ × List ℚ × List ℚ :=
        match rq.2 with
        | some (ec, ph, tp) =>
          (ecs ++ (if valid_range ec VALID_EC_MIN VALID_EC_MAX then [ec.getD 0] else []),
           phs ++ (if valid_range ph VALID_PH_MIN VALID_PH_MAX then [ph.getD 0] else []),
           tps ++ (if valid_range tp VALID_TP_MIN VALID_TP_MAX then [tp.getD 0] else []))
        | none => (ecs, phs, tps)
      let rest := rr3_go sw att fuel (i + 1) acc2
      (rq.1 ++ rest.1, rest.2)

/-- Embeds read_representative_3() of
src/controllers/Dist_2_EC_pH_auto_control.py as an event trace: the
exclusive flock, the whole read-retry sequence, and the unconditional
release of the finally block on every path. -/
def read_representative_3 (sw : ℕ → Option Bool) (att : ℕ → ℕ → Att) :
    List Ev × RStatus :=
  let body := rr3_go sw att READ_N 0 ([], [], [])
  (.acquire :: body.1 ++ [.release], body.2)

/-- Actuator events of the dosing part of control_once_direct: a gpio on
command carrying the computed wait duration, a gpio off command, and the
dose log line with its volume and duration. -/
inductive PEv where
  | on (topic : String) (plannedSec : ℚ)
  | off (topic : String)
  | log (device : String) (ml sec : ℚ)
deriving DecidableEq, Repr

/-- Embeds run_pump(topic, device, ml): gpio on, the wait_with_abort poll
loop (discretized to steps 50 ms polls), the finally gpio off, and the
dose log line only on normal completion; the Bool is the propagated
auto_switch_off RuntimeError. -/
def run_pump (topic device : String) (ml : ℚ) (steps : ℕ)
    (rd : ℕ → Option Bool) : List PEv × Bool :=
  let sec_needed := ml / PUMP_ML_PER_SEC
  if pollAborts steps rd then ([.on topic sec_needed, .off topic], true)
  else ([.on topic sec_needed, .off topic, .log device ml sec_needed], false)

/-- force_all_off(): both pumps off. -/
def force_all_off_evs : List PEv :=
  [.off TOPIC_AB, .off TOPIC_ACID]

/-- Embeds the threshold-and-dose try block of control_once_direct() for a
successful read (ec, ph): the EC rule, then the pH rule, with the
RuntimeError of an aborted wait caught by force_all_off and a STOP
outcome. -/
def dose_phase (ec : ℚ) (ph : Option ℚ) (stepsAB stepsAcid : ℕ)
    (rdAB rdAcid : ℕ → Option Bool) : List PEv × String :=
  let ab := if ec ≤ EC_MIN then run_pump TOPIC_AB "AB" DOSE_ML stepsAB rdAB else ([], false)
  if ab.2 then (ab.1 ++ force_all_off_evs, "STOP")
  else
    let acid :=
      match ph with
      | some p => if PH_MAX ≤ p then run_pump TOPIC_ACID "Acid" DOSE_ML stepsAcid rdAcid else ([], false)
      | none => ([], false)
    if acid.2 then (ab.1 ++ acid.1 ++ force_all_off_evs, "STOP")
    else (ab.1 ++ acid.1, "OK")

end Cja.Ctrl2

namespace Cja.Ctrl1

/-! Embedding of the Dist_1 dosing controller
src/controllers/Dist_1_EC_pH_auto_control.py 
with its Modbus averaging read and GPIO relay pumps. -/

def EC_MIN : ℚ := 7/10
def PH_MAX : ℚ := 13/2
def PUMP_ML_PER_SEC : ℚ := 165/100
def DOSE_ML : ℚ := 10
def PIN_AB : ℕ := 17
def PIN_ACID : ℕ := 21

/-- Events of one control_once() cycle: the rs485 flock, one Modbus
exchange per averaging iteration, the sensor CSV row, relay writes
carrying the commanded wait duration, injection CSV records, and the
flock release of the finally block.  The CSV-header preparation I/O has
no transport or actuator effect and is not part of the alphabet. -/
inductive Ev1 where
  | acquire
  | exchange (i : ℕ)
  | row
  | relayOn (pin : ℕ) (sec : ℚ)
  | relayOff (pin : ℕ)
  | inject (device : String) (ml sec : ℚ)
  | release
deriving DecidableEq, Repr

/-- Outcome of average_ec_ph_temp(). -/
inductive AvgRes where
  | stop
  | fail
  | ok (ec ph tp : ℚ)
deriving DecidableEq, Repr

/-- Arithmetic mean. -/
def mean (l : List ℚ) : ℚ :=
  l.sum / l.length

/-- Embeds the sampling loop of average_ec_ph_temp(): before every
safe_read_once the stdin switch is polled (False aborts with STOP), a
failed read contributes nothing, and a successful read contributes its
whole triple.  The DURATION_SEC wall-clock window is discretized into
nIter one-second iterations. -/
def avg_go (sw : ℕ → Option Bool) (reads : ℕ → Option (ℚ × ℚ × ℚ)) :
    ℕ → ℕ → List (ℚ × ℚ × ℚ) → List Ev1 × Option (List (ℚ × ℚ × ℚ))
  | 0, _, acc => ([], some acc)
  | fuel + 1, i, acc =>
    if sw i = some false then ([], none)
    else
      let acc2 :=
        match reads i with
        | some v => acc ++ [v]
        | none => acc
      let rest := avg_go sw reads fuel (i + 1) acc2
      (.exchange i :: rest.1, rest.2)

/-- Embeds average_ec_ph_temp() of
src/controllers/Dist_1_EC_pH_auto_control.py: STOP when the switch went
off mid-averaging, FAIL when no read succeeded (the three lists are
filled together, so they are empty together), otherwise the rounded
means with the pH calibration 0.9926 * avg - 0.2488. -/
def average_ec_ph_temp (nIter : ℕ) (sw : ℕ → Option Bool)
    (reads : ℕ → Option (ℚ × ℚ × ℚ)) : List Ev1 × AvgRes :=
  let r := avg_go sw reads nIter 0 []
  match r.2 with
  | none => (r.1, .stop)
  | some acc =>
    if acc.isEmpty then (r.1, .fail)
    else
      let ecs := acc.map (fun v => v.1)
      let phs := acc.map (fun v => v.2.1)
      let tps := acc.map (fun v => v.2.2)
      (r.1, .ok (round2 (mean ecs))
        (round2 ((9926/10000 : ℚ) * mean phs - 2488/10000))
        (round2 (mean tps)))

/-- Embeds run_pump(pin, seconds) of Dist_1: relay on (active low), the
50 ms abort-polling wait, and the relay off of the finally block; the
Bool is the propagated auto_switch_off RuntimeError.  GPIO_OK is modelled
as true. -/
def run_pump (pin : ℕ) (seconds : ℚ) (steps : ℕ)
    (rd : ℕ → Option Bool) : List Ev1 × Bool :=
  if pollAborts steps rd then ([.relayOn pin seconds, .relayOff pin], true)
  else ([.relayOn pin seconds, .relayOff pin], false)

/-- Embeds control_once() of src/controllers/Dist_1_EC_pH_auto_control.py:
flock the rs485 bus, run the averaging read, log the sensor row, apply
the EC rule (strict avg_ec < EC_MIN) then the pH rule (avg_ph >= PH_MAX)
each with its injection record on completion, catch the auto_switch_off
RuntimeError with force_pumps_off and a STOP outcome, and release the
lock in the finally block on every path. -/
def control_once (nIter steps1 steps2 : ℕ) (sw rd1 rd2 : ℕ → Option Bool)
    (reads : ℕ → Option (ℚ × ℚ × ℚ)) : List Ev1 × String :=
  let avg := average_ec_ph_temp nIter sw reads
  match avg.2 with
  | .stop => (.acquire :: avg.1 ++ [.release], "STOP")
  | .fail => (.acquire :: avg.1 ++ [.release], "FAIL")
  | .ok ec ph _tp =>
    let sec_needed := DOSE_ML / PUMP_ML_PER_SEC
    let ab := if ec < EC_MIN then run_pump PIN_AB sec_needed steps1 rd1 else ([], false)
    if ab.2 then
      (.acquire :: avg.1 ++ [.row] ++ ab.1 ++
        [.relayOff PIN_AB, .relayOff PIN_ACID] ++ [.release], "STOP")
    else
      let abLog : List Ev1 := if ec < EC_MIN then [.inject "AB" DOSE_ML sec_needed] else []
      let acid := if PH_MAX ≤ ph then run_pump PIN_ACID sec_needed steps2 rd2 else ([], false)
      if acid.2 then
        (.acquire :: avg.1 ++ [.row] ++ ab.1 ++ abLog ++ acid.1 ++
          [.relayOff PIN_AB, .relayOff PIN_ACID] ++ [.release], "STOP")
      else
        let acidLog : List Ev1 := if PH_MAX ≤ ph then [.inject "Acid" DOSE_ML sec_needed] else []
        (.acquire :: avg.1 ++ [.row] ++ ab.1 ++ abLog ++ acid.1 ++ acidLog ++ [.release], "OK")

end Cja.Ctrl1

namespace Cja.Ctrl2

/-- Invariant of the main_loop fold: done is the list of slot keys of the
ticks already processed; the executed slots are distinct, each was seen,
and while the loop is running, an executed slot that is still the most
recent key must be the one stored in last_run_slot. -/
def LoopInv (done : List String) (st : LoopState) : Prop :=
  st.executed.Nodup ∧ (∀ s ∈ st.executed, s ∈ done) ∧
  (st.stopped = false → ∀ s ∈ st.executed,
    done.getLast? = some s → st.lastRun = some s)

/-- One read of read_representative_3 yields a range-valid value on the
channel selected by pick: the request for that read succeeded and the
picked component passes valid_range. -/
def read_valid (att : ℕ → ℕ → Att)
    (pick : Option ℚ × Option ℚ × Option ℚ → Option ℚ) (lo hi : ℚ) (i : ℕ) : Bool :=
  match (request_once_locked i (att i)).2 with
  | some t => valid_range (pick t) lo hi
  | none => false

/-- The values a run of reads contributes to one channel list of
read_representative_3, indexed by the list of read numbers. -/
def chanContribL (att : ℕ → ℕ → Att)
    (pick : Option ℚ × Option ℚ × Option ℚ → Option ℚ) (lo hi : ℚ) :
    List ℕ → List ℚ
  | [] => []
  | i :: rest =>
    (match (request_once_locked i (att i)).2 with
     | some t => if valid_range (pick t) lo hi then [(pick t).getD 0] else []
     | none => []) ++ chanContribL att pick lo hi rest

end Cja.Ctrl2

namespace Cja

/-! Theorems settling the claims. -/

theorem lastN_length_le (n : ℕ) (l : List ℚ) : (lastN n l).length ≤ n := by
  unfold lastN
  rw [List.length_drop]
  omega

theorem lastN_eq_self (n : ℕ) (l : List ℚ) (h : l.length ≤ n) : lastN n l = l := by
  unfold lastN
  rw [Nat.sub_eq_zero_of_le h]
  exact List.drop_zero l

theorem insertSorted_length (x : ℚ) (l : List ℚ) :
    (insertSorted x l).length = l.length + 1 := by
  induction l with
  | nil => rfl
  | cons y t ih =>
    unfold insertSorted
    split
    · simp [ih]
    · simp

theorem pySorted_length (l : List ℚ) : (pySorted l).length = l.length := by
  induction l with
  | nil => rfl
  | cons y t ih =>
    show (insertSorted y (pySorted t)).length = t.length + 1
    rw [insertSorted_length, ih]

theorem median_ne_none (values : List ℚ) (h : values ≠ []) :
    ∃ m, median values = some m := by
  have hlen : values.length ≠ 0 := by
    simpa [List.length_eq_zero] using h
  have hlen2 : (pySorted values).length ≠ 0 := by
    simpa [pySorted_length] using hlen
  unfold median
  simp only [hlen2, if_false]
  split <;> exact ⟨_, rfl⟩

theorem mad_ne_none (values : List ℚ) (med : ℚ) (h : values ≠ []) :
    ∃ m, mad values med = some m := by
  apply median_ne_none
  simpa using h

theorem lastN_length (n : ℕ) (l : List ℚ) : (lastN n l).length = min n l.length := by
  unfold lastN
  rw [List.length_drop]
  omega

theorem lastN_ne_nil (n : ℕ) (l : List ℚ) (hn : 0 < n) (hl : l ≠ []) :
    lastN n l ≠ [] := by
  intro hcon
  have h0 : (lastN n l).length = 0 := by rw [hcon]; rfl
  rw [lastN_length] at h0
  have : l.length ≠ 0 := by simpa [List.length_eq_zero] using hl
  omega

/-- C3: over the live pipeline src/sensors/Dist_2_EC_pH.py, the Hampel
test accepts unconditionally while the history is shorter than
max(5, W/3); otherwise, with m and mad the median and MAD of the last W
accepted values, it accepts iff |x - m| <= k * sigma when
sigma = 1.4826 * mad is positive, and iff |x - m| < 1e-9 when sigma is
zero.  (Amended from C3: the claim holds for hampel_accept of the live
pipeline; the also-cited old-version hampel_is_outlier differs, see the
counterexample.) -/
theorem C3_hampel_accept_characterization (x : ℚ) (H : List ℚ) (k : ℚ) :
    (H.length < max 5 (Sensor2.HAMPEL_WIN / 3) →
      Sensor2.hampel_accept x H k = true) ∧
    (max 5 (Sensor2.HAMPEL_WIN / 3) ≤ H.length →
      ∃ m mv, median (lastN Sensor2.HAMPEL_WIN H) = some m ∧
        mad (lastN Sensor2.HAMPEL_WIN H) m = some mv ∧
        (0 < Sensor2.HAMPEL_SCALE * mv →
          (Sensor2.hampel_accept x H k = true ↔
            |x - m| ≤ k * (Sensor2.HAMPEL_SCALE * mv))) ∧
        (Sensor2.HAMPEL_SCALE * mv = 0 →
          (Sensor2.hampel_accept x H k = true ↔ |x - m| < Sensor2.HAMPEL_EPS))) := by
  constructor
  · intro h
    unfold Sensor2.hampel_accept
    rw [if_pos h]
  · intro h
    have hne : lastN Sensor2.HAMPEL_WIN H ≠ [] := by
      apply lastN_ne_nil
      · norm_num [Sensor2.HAMPEL_WIN]
      · intro hcon
        rw [hcon] at h
        simp [Sensor2.HAMPEL_WIN] at h
    obtain ⟨m, hm⟩ := median_ne_none _ hne
    obtain ⟨mv, hmv⟩ := mad_ne_none _ m hne
    refine ⟨m, mv, hm, hmv, ?_, ?_⟩
    · intro hs
      unfold Sensor2.hampel_accept
      rw [if_neg (not_lt.mpr h)]
      simp only [hm, hmv]
      rw [if_neg (ne_of_gt hs)]
      exact decide_eq_true_iff
    · intro hs
      unfold Sensor2.hampel_accept
      rw [if_neg (not_lt.mpr h)]
      simp only [hm, hmv]
      rw [if_pos hs]
      exact decide_eq_true_iff

/-- C3 witness: the amended characterization applied at the concrete
history [1, 1, 1, 1, 1] (median 1, MAD 0, so sigma = 0) and candidate
3/2, which hampel_accept rejects. -/
theorem C3_hampel_accept_characterization_witness :
    ∃ m mv, median (lastN Sensor2.HAMPEL_WIN [1, 1, 1, 1, 1]) = some m ∧
      mad (lastN Sensor2.HAMPEL_WIN [1, 1, 1, 1, 1]) m = some mv ∧
      (0 < Sensor2.HAMPEL_SCALE * mv →
        (Sensor2.hampel_accept (3/2) [1, 1, 1, 1, 1] 3 = true ↔
          |(3/2 : ℚ) - m| ≤ 3 * (Sensor2.HAMPEL_SCALE * mv))) ∧
      (Sensor2.HAMPEL_SCALE * mv = 0 →
        (Sensor2.hampel_accept (3/2) [1, 1, 1, 1, 1] 3 = true ↔
          |(3/2 : ℚ) - m| < Sensor2.HAMPEL_EPS)) :=
  (C3_hampel_accept_characterization (3/2) [1, 1, 1, 1, 1] 3).2 (by decide)

/-- C3 counterexample: the claim is false of the also-cited
hampel_is_outlier of src/old_version/Dist_2_EC_pH_20260105.py.  On the
history [1, 1, 1, 1, 1] the MAD is zero, yet the candidate 100 is not
treated as an outlier (accepted) although |100 - 1| is nowhere near the
floating epsilon; and on the four-element history [1, 1, 12/10, 13/10],
which is shorter than max(5, W/3) = 5, the candidate 100 is rejected
instead of being accepted unconditionally. -/
theorem C3_counterexample :
    OldV.hampel_is_outlier 100 [1, 1, 1, 1, 1] 3 = false ∧
    median [(1 : ℚ), 1, 1, 1, 1] = some 1 ∧
    mad [(1 : ℚ), 1, 1, 1, 1] 1 = some 0 ∧
    ¬(|(100 : ℚ) - 1| < Sensor2.HAMPEL_EPS) ∧
    OldV.hampel_is_outlier 100 [1, 1, 12/10, 13/10] 3 = true ∧
    List.length [(1 : ℚ), 1, 12/10, 13/10] < max 5 (Sensor2.HAMPEL_WIN / 3) := by
  refine ⟨by decide, by decide, by decide, by decide, by decide, by decide⟩

/-- C4 counterexample: in main() of src/sensors/Dist_2_EC_pH.py a
candidate rejected by the Hampel test IS discarded: with history
[1, 1, 1, 1, 1], representative 1 and empty pending, the in-range
candidate 3/2 is rejected by hampel_accept and the channel state —
including the pending buffer, which the claim says must receive the
candidate — is left completely unchanged. -/
theorem C4_counterexample :
    Sensor2.hampel_accept (3/2) [1, 1, 1, 1, 1] Sensor2.HAMPEL_K = false ∧
    (Sensor2.VALID_EC_MIN ≤ (3/2 : ℚ) ∧ (3/2 : ℚ) ≤ Sensor2.VALID_EC_MAX) ∧
    Sensor2.channel_update Sensor2.VALID_EC_MIN Sensor2.VALID_EC_MAX
      Sensor2.EC_BAND_ABS ⟨[1, 1, 1, 1, 1], some 1, []⟩ (some (3/2)) =
      ⟨[1, 1, 1, 1, 1], some 1, []⟩ := by
  refine ⟨by decide, by decide, by decide⟩

/-- C4 (amended): in src/sensors/Dist_2_EC_pH.py the confirmation gate
applies to Hampel-ACCEPTED candidates, not rejected ones.  (a) A
Hampel-rejected candidate leaves the channel state (pending included)
unchanged.  (b) For an accepted candidate that is not within the band of
the current representative, confirmation_update appends it to the
bounded pending buffer and, when at least m of the pending values lie
within the band of the pending median, promotes the median of that close
subset as the new representative and clears pending; otherwise the
representative is unchanged.  (c) The pending buffer never exceeds its
capacity n. -/
theorem C4_confirmation_routing :
    (∀ (lo hi band : ℚ) (ch : Sensor2.Ch) (v : ℚ),
      Sensor2.hampel_accept v ch.hist Sensor2.HAMPEL_K = false →
      Sensor2.channel_update lo hi band ch (some v) = ch) ∧
    (∀ (r : ℚ) (pend : List ℚ) (c band : ℚ) (n m : ℕ), 1 ≤ n →
      Sensor2.within_band c r band = false →
      ∃ pm, median (lastN n (pend ++ [c])) = some pm ∧
        Sensor2.confirmation_update (some r) pend c band n m =
          (if m ≤ ((lastN n (pend ++ [c])).filter
              (fun x => decide (|x - pm| ≤ band))).length
           then (median ((lastN n (pend ++ [c])).filter
              (fun x => decide (|x - pm| ≤ band))), [], "promoted_confirmed")
           else (some r, lastN n (pend ++ [c]), "pending"))) ∧
    (∀ (rep : Option ℚ) (pend : List ℚ) (c band : ℚ) (n m : ℕ),
      (Sensor2.confirmation_update rep pend c band n m).2.1.length ≤ n) := by
  refine ⟨?_, ?_, ?_⟩
  · intro lo hi band ch v h
    simp only [Sensor2.channel_update]
    rw [h]
    simp
  · intro r pend c band n m hn hband
    have hne : lastN n (pend ++ [c]) ≠ [] := by
      apply lastN_ne_nil n _ hn
      simp
    obtain ⟨pm, hpm⟩ := median_ne_none _ hne
    refine ⟨pm, hpm, ?_⟩
    simp only [Sensor2.confirmation_update, hband, Bool.false_eq_true, if_false, hpm]
  · intro rep pend c band n m
    cases rep with
    | none => simp [Sensor2.confirmation_update]
    | some r =>
      by_cases hb : Sensor2.within_band c r band = true
      · simp [Sensor2.confirmation_update, hb]
      · rw [Bool.not_eq_true] at hb
        simp only [Sensor2.confirmation_update, hb, Bool.false_eq_true, if_false]
        split
        · simpa using lastN_length_le n (pend ++ [c])
        · split
          · simp
          · simpa using lastN_length_le n (pend ++ [c])

/-- C4 witness: the amended behavior applied at representative 1, empty
pending, candidate 3/2, band 1/5, n = 3, m = 2 (the candidate is far from
the representative, enters pending alone, and is not yet promoted), and
the rejected-candidate case of the counterexample state. -/
theorem C4_confirmation_routing_witness :
    (Sensor2.channel_update 0 5 (1/5) ⟨[1, 1, 1, 1, 1], some 1, []⟩ (some (3/2)) =
      ⟨[1, 1, 1, 1, 1], some 1, []⟩) ∧
    (∃ pm, median (lastN 3 ([] ++ [(3/2 : ℚ)])) = some pm ∧
      Sensor2.confirmation_update (some 1) [] (3/2) (1/5) 3 2 =
        (if 2 ≤ ((lastN 3 ([] ++ [(3/2 : ℚ)])).filter
            (fun x => decide (|x - pm| ≤ (1/5 : ℚ)))).length
         then (median ((lastN 3 ([] ++ [(3/2 : ℚ)])).filter
            (fun x => decide (|x - pm| ≤ (1/5 : ℚ)))), [], "promoted_confirmed")
         else (some 1, lastN 3 ([] ++ [(3/2 : ℚ)]), "pending"))) ∧
    (Sensor2.confirmation_update (some 1) [] (3/2) (1/5) 3 2).2.1.length ≤ 3 :=
  ⟨C4_confirmation_routing.1 0 5 (1/5) ⟨[1, 1, 1, 1, 1], some 1, []⟩ (3/2) (by decide),
   C4_confirmation_routing.2.1 1 [] (3/2) (1/5) 3 2 (by decide) (by decide),
   C4_confirmation_routing.2.2 (some 1) [] (3/2) (1/5) 3 2⟩

/-- C9 counterexample: in main() of src/sensors/Dist_2_EC_pH.py the
history is trimmed to HAMPEL_WIN * 3 = 45 entries, not to the Hampel
window W = 15: sixteen successive accepted updates with the in-range
value 1 leave the EC history at length 16 > HAMPEL_WIN, refuting the
claim that the length never exceeds W after every update. -/
theorem C9_counterexample :
    ((List.replicate 16 (some (1 : ℚ))).foldl
      (Sensor2.channel_update Sensor2.VALID_EC_MIN Sensor2.VALID_EC_MAX
        Sensor2.EC_BAND_ABS) ⟨[], none, []⟩).hist.length = 16 ∧
    Sensor2.HAMPEL_WIN < 16 := by
  refine ⟨by decide, by decide⟩

/-- C9 (amended): histories only grow by appending Hampel-accepted values
with the oldest entries evicted beyond the capacity, but the capacity in
src/sensors/Dist_2_EC_pH.py is 3 * HAMPEL_WIN (45), not W: (a) after any
update the history length stays within 3 * HAMPEL_WIN whenever it was
within the bound before; (b) an accepted in-range value appends exactly
that value (with eviction beyond 3 * HAMPEL_WIN); (c) a rejected,
out-of-range or missing value leaves the history unchanged; (d) in the
old version src/old_version/Dist_2_EC_pH_20260105.py the windows are
deques of maxlen HAMPEL_WINDOW = 9, so there the W bound does hold. -/
theorem C9_history_capacity :
    (∀ (lo hi band : ℚ) (ch : Sensor2.Ch) (x : Option ℚ),
      ch.hist.length ≤ 3 * Sensor2.HAMPEL_WIN →
      (Sensor2.channel_update lo hi band ch x).hist.length ≤ 3 * Sensor2.HAMPEL_WIN) ∧
    (∀ (lo hi band : ℚ) (ch : Sensor2.Ch) (v : ℚ),
      (lo ≤ v ∧ v ≤ hi) → Sensor2.hampel_accept v ch.hist Sensor2.HAMPEL_K = true →
      (Sensor2.channel_update lo hi band ch (some v)).hist =
        lastN (Sensor2.HAMPEL_WIN * 3) (ch.hist ++ [v])) ∧
    (∀ (lo hi band : ℚ) (ch : Sensor2.Ch) (v : ℚ),
      Sensor2.hampel_accept v ch.hist Sensor2.HAMPEL_K = false →
      (Sensor2.channel_update lo hi band ch (some v)).hist = ch.hist) ∧
    (∀ (lo hi band : ℚ) (ch : Sensor2.Ch),
      (Sensor2.channel_update lo hi band ch none).hist = ch.hist) ∧
    (∀ (s : OldV.OState) (ec ph tp : Option ℚ),
      s.win_ec.length ≤ OldV.HAMPEL_WINDOW →
      s.win_ph.length ≤ OldV.HAMPEL_WINDOW →
      s.win_tp.length ≤ OldV.HAMPEL_WINDOW →
      (OldV.old_step s ec ph tp).win_ec.length ≤ OldV.HAMPEL_WINDOW ∧
      (OldV.old_step s ec ph tp).win_ph.length ≤ OldV.HAMPEL_WINDOW ∧
      (OldV.old_step s ec ph tp).win_tp.length ≤ OldV.HAMPEL_WINDOW) := by
  refine ⟨?_, ?_, ?_, ?_, ?_⟩
  · intro lo hi band ch x hle
    cases x with
    | none => simpa [Sensor2.channel_update] using hle
    | some v =>
      simp only [Sensor2.channel_update]
      split
      · split
        · have := lastN_length_le (Sensor2.HAMPEL_WIN * 3) (ch.hist ++ [v])
          simpa [Nat.mul_comm] using this
        · exact hle
      · exact hle
  · intro lo hi band ch v hrange hacc
    simp only [Sensor2.channel_update, hrange, if_true, hacc]
    simp
  · intro lo hi band ch v h
    simp only [Sensor2.channel_update]
    rw [h]
    simp
  · intro lo hi band ch
    rfl
  · intro s ec ph tp h1 h2 h3
    unfold OldV.old_step
    split
    · split
      · dsimp only
        split
        · split
          · refine ⟨?_, ?_, ?_⟩ <;>
              simpa [OldV.push] using lastN_length_le OldV.HAMPEL_WINDOW _
          · exact ⟨h1, h2, h3⟩
        · refine ⟨?_, ?_, ?_⟩ <;>
            simpa [OldV.push] using lastN_length_le OldV.HAMPEL_WINDOW _
      · exact ⟨h1, h2, h3⟩
    · exact ⟨h1, h2, h3⟩

/-- C9 witness: the amended bounds applied at the counterexample-style
inputs: the empty channel accepting the in-range value 1, and the empty
old-version state on the valid triple (1, 7, 20). -/
theorem C9_history_capacity_witness :
    ((Sensor2.channel_update 0 5 (1/5) ⟨[], none, []⟩ (some 1)).hist.length ≤
      3 * Sensor2.HAMPEL_WIN) ∧
    ((Sensor2.channel_update 0 5 (1/5) ⟨[], none, []⟩ (some 1)).hist =
      lastN (Sensor2.HAMPEL_WIN * 3) ([] ++ [1])) ∧
    ((Sensor2.channel_update 0 5 (1/5) ⟨[1, 1, 1, 1, 1], some 1, []⟩
      (some (3/2))).hist = [1, 1, 1, 1, 1]) ∧
    ((OldV.old_step OldV.init (some 1) (some 7) (some 20)).win_ec.length ≤
      OldV.HAMPEL_WINDOW) :=
  ⟨C9_history_capacity.1 0 5 (1/5) ⟨[], none, []⟩ (some 1) (by decide),
   C9_history_capacity.2.1 0 5 (1/5) ⟨[], none, []⟩ 1 (by decide) (by decide),
   C9_history_capacity.2.2.1 0 5 (1/5) ⟨[1, 1, 1, 1, 1], some 1, []⟩ (3/2) (by decide),
   (C9_history_capacity.2.2.2.2 OldV.init (some 1) (some 7) (some 20)
     (by decide) (by decide) (by decide)).1⟩

/-- C7 counterexample: in the cited old version
src/old_version/Dist_2_EC_pH_20260105.py, is_valid_physical rejects the
whole triple, so an out-of-range pH discards a range-valid EC of the same
acquisition: on the fresh state, the triple (EC = 1, pH = 1, temp = 20)
with EC inside [EC_MIN, EC_MAX] leaves the state untouched (rep_ec stays
None), while the same acquisition with a valid pH of 7 would have set
rep_ec to 1. -/
theorem C7_counterexample :
    (OldV.EC_MIN ≤ (1 : ℚ) ∧ (1 : ℚ) ≤ OldV.EC_MAX) ∧
    OldV.is_valid_physical (some 1) (some 1) (some 20) = false ∧
    OldV.old_step OldV.init (some 1) (some 1) (some 20) = OldV.init ∧
    (OldV.old_step OldV.init (some 1) (some 7) (some 20)).rep_ec = some 1 := by
  refine ⟨by decide, by decide, by decide, by decide⟩

/-- C7 (amended): in the live pipeline src/sensors/Dist_2_EC_pH.py
validation and filtering are per-channel: the per-poll update of main()
factors into three independent channel updates (each channel of the new
state depends only on that channel of the old state and that channel of
the parsed triple), and a missing or out-of-range value leaves its own
channel state — its representative included — unchanged.  In the old
version src/old_version/Dist_2_EC_pH_20260105.py this independence fails:
is_valid_physical rejects the whole triple (see the counterexample). -/
theorem C7_channel_independence :
    (∀ (s : Sensor2.SState) (a b c : Option ℚ),
      (Sensor2.main_step s a b c).ec =
        Sensor2.channel_update Sensor2.VALID_EC_MIN Sensor2.VALID_EC_MAX
          Sensor2.EC_BAND_ABS s.ec a ∧
      (Sensor2.main_step s a b c).ph =
        Sensor2.channel_update Sensor2.VALID_PH_MIN Sensor2.VALID_PH_MAX
          Sensor2.PH_BAND_ABS s.ph b ∧
      (Sensor2.main_step s a b c).tp =
        Sensor2.channel_update Sensor2.VALID_TP_MIN Sensor2.VALID_TP_MAX
          Sensor2.TP_BAND_ABS s.tp c) ∧
    (∀ (lo hi band : ℚ) (ch : Sensor2.Ch),
      Sensor2.channel_update lo hi band ch none = ch) ∧
    (∀ (lo hi band : ℚ) (ch : Sensor2.Ch) (v : ℚ),
      ¬(lo ≤ v ∧ v ≤ hi) →
      Sensor2.channel_update lo hi band ch (some v) = ch) := by
  refine ⟨?_, ?_, ?_⟩
  · intro s a b c
    exact ⟨rfl, rfl, rfl⟩
  · intro lo hi band ch
    rfl
  · intro lo hi band ch v h
    simp only [Sensor2.channel_update]
    rw [if_neg h]

/-- C7 witness: the channel decomposition at a concrete state and
acquisition whose pH (value 1) is out of range while EC = 1 is valid, and
the unchanged-channel facts at that out-of-range pH. -/
theorem C7_channel_independence_witness :
    ((Sensor2.main_step ⟨⟨[], none, []⟩, ⟨[], none, []⟩, ⟨[], none, []⟩, none⟩
        (some 1) (some 1) (some 20)).ec =
      Sensor2.channel_update Sensor2.VALID_EC_MIN Sensor2.VALID_EC_MAX
        Sensor2.EC_BAND_ABS ⟨[], none, []⟩ (some 1)) ∧
    (Sensor2.channel_update Sensor2.VALID_PH_MIN Sensor2.VALID_PH_MAX
      Sensor2.PH_BAND_ABS ⟨[], none, []⟩ none = ⟨[], none, []⟩) ∧
    (Sensor2.channel_update Sensor2.VALID_PH_MIN Sensor2.VALID_PH_MAX
      Sensor2.PH_BAND_ABS ⟨[], none, []⟩ (some 1) = ⟨[], none, []⟩) :=
  ⟨(C7_channel_independence.1
      ⟨⟨[], none, []⟩, ⟨[], none, []⟩, ⟨[], none, []⟩, none⟩
      (some 1) (some 1) (some 20)).1,
   C7_channel_independence.2.1 Sensor2.VALID_PH_MIN Sensor2.VALID_PH_MAX
     Sensor2.PH_BAND_ABS ⟨[], none, []⟩,
   C7_channel_independence.2.2 Sensor2.VALID_PH_MIN Sensor2.VALID_PH_MAX
     Sensor2.PH_BAND_ABS ⟨[], none, []⟩ 1 (by decide)⟩

theorem pollAborts_none (steps : ℕ) :
    pollAborts steps (fun _ => none) = false := by
  simp [pollAborts]

theorem avg_go_events (sw : ℕ → Option Bool) (reads : ℕ → Option (ℚ × ℚ × ℚ)) :
    ∀ (fuel i : ℕ) (acc : List (ℚ × ℚ × ℚ)),
      ∀ e ∈ (Ctrl1.avg_go sw reads fuel i acc).1, ∃ j, e = Ctrl1.Ev1.exchange j := by
  intro fuel
  induction fuel with
  | zero => intro i acc e he; simp [Ctrl1.avg_go] at he
  | succ n ih =>
    intro i acc e he
    simp only [Ctrl1.avg_go] at he
    split at he
    · simp at he
    · rcases List.mem_cons.mp he with h | h
      · exact ⟨i, h⟩
      · exact ih (i + 1) _ e h

theorem avg_trace_eq (nIter : ℕ) (sw : ℕ → Option Bool)
    (reads : ℕ → Option (ℚ × ℚ × ℚ)) :
    (Ctrl1.average_ec_ph_temp nIter sw reads).1 =
      (Ctrl1.avg_go sw reads nIter 0 []).1 := by
  unfold Ctrl1.average_ec_ph_temp
  rcases h : (Ctrl1.avg_go sw reads nIter 0 []).2 with _ | acc
  · simp only [h]
  · simp only [h]
    split <;> rfl

theorem avg_events (nIter : ℕ) (sw : ℕ → Option Bool)
    (reads : ℕ → Option (ℚ × ℚ × ℚ)) :
    ∀ e ∈ (Ctrl1.average_ec_ph_temp nIter sw reads).1,
      ∃ j, e = Ctrl1.Ev1.exchange j := by
  intro e he
  rw [avg_trace_eq] at he
  exact avg_go_events sw reads nIter 0 [] e he

theorem relayOn_not_mem_avg (nIter : ℕ) (sw : ℕ → Option Bool)
    (reads : ℕ → Option (ℚ × ℚ × ℚ)) (pin : ℕ) (d : ℚ) :
    Ctrl1.Ev1.relayOn pin d ∉ (Ctrl1.average_ec_ph_temp nIter sw reads).1 := by
  intro hmem
  rcases avg_events nIter sw reads _ hmem with ⟨j, hj⟩
  simp at hj

theorem inject_not_mem_avg (nIter : ℕ) (sw : ℕ → Option Bool)
    (reads : ℕ → Option (ℚ × ℚ × ℚ)) (dev : String) (ml d : ℚ) :
    Ctrl1.Ev1.inject dev ml d ∉ (Ctrl1.average_ec_ph_temp nIter sw reads).1 := by
  intro hmem
  rcases avg_events nIter sw reads _ hmem with ⟨j, hj⟩
  simp at hj

/-- C1 counterexample: the claim fails on
src/controllers/Dist_1_EC_pH_auto_control.py, whose EC rule is the strict
avg_ec < EC_MIN: with a representative EC exactly equal to EC_MIN = 0.7
(one clean read of (0.7, 6, 20); the calibrated pH 5.71 stays below
PH_MAX), control_once completes with outcome OK without ever driving the
AB pump, although ec ≤ EC_MIN holds. -/
theorem C1_counterexample :
    Ctrl1.average_ec_ph_temp 1 (fun _ => none) (fun _ => some (7/10, 6, 20)) =
      ([Ctrl1.Ev1.exchange 0], .ok (7/10) (571/100) 20) ∧
    ((7/10 : ℚ) ≤ Ctrl1.EC_MIN) ∧
    (Ctrl1.control_once 1 0 0 (fun _ => none) (fun _ => none) (fun _ => none)
      (fun _ => some (7/10, 6, 20))).2 = "OK" ∧
    Ctrl1.Ev1.relayOn Ctrl1.PIN_AB (Ctrl1.DOSE_ML / Ctrl1.PUMP_ML_PER_SEC) ∉
      (Ctrl1.control_once 1 0 0 (fun _ => none) (fun _ => none) (fun _ => none)
        (fun _ => some (7/10, 6, 20))).1 := by
  refine ⟨by decide, by decide, by decide, by decide⟩

/-- C1 (amended): for an uninterrupted cycle with representative values,
the Dist_2 controller drives the AB pump exactly when ec <= EC_MIN and
the acid pump exactly when a present pH satisfies ph >= PH_MAX, while the
Dist_1 controller drives AB exactly when ec < EC_MIN (strict) and acid
exactly when ph >= PH_MAX; each dose runs the pump — and records the dose
— with the duration DOSE_ML / PUMP_ML_PER_SEC, the two rules are
evaluated independently, and both may fire in the same cycle. -/
theorem C1_threshold_rules :
    (∀ (ec : ℚ) (ph : Option ℚ) (sAB sAcid : ℕ),
      (Ctrl2.PEv.on Ctrl2.TOPIC_AB (Ctrl2.DOSE_ML / Ctrl2.PUMP_ML_PER_SEC) ∈
        (Ctrl2.dose_phase ec ph sAB sAcid (fun _ => none) (fun _ => none)).1 ↔
        ec ≤ Ctrl2.EC_MIN) ∧
      (Ctrl2.PEv.log "AB" Ctrl2.DOSE_ML (Ctrl2.DOSE_ML / Ctrl2.PUMP_ML_PER_SEC) ∈
        (Ctrl2.dose_phase ec ph sAB sAcid (fun _ => none) (fun _ => none)).1 ↔
        ec ≤ Ctrl2.EC_MIN) ∧
      (Ctrl2.PEv.on Ctrl2.TOPIC_ACID (Ctrl2.DOSE_ML / Ctrl2.PUMP_ML_PER_SEC) ∈
        (Ctrl2.dose_phase ec ph sAB sAcid (fun _ => none) (fun _ => none)).1 ↔
        (∃ p, ph = some p ∧ Ctrl2.PH_MAX ≤ p)) ∧
      (Ctrl2.dose_phase ec ph sAB sAcid (fun _ => none) (fun _ => none)).2 = "OK") ∧
    (∀ (nIter s1 s2 : ℕ) (sw : ℕ → Option Bool)
      (reads : ℕ → Option (ℚ × ℚ × ℚ)) (ec ph tp : ℚ),
      (Ctrl1.average_ec_ph_temp nIter sw reads).2 = .ok ec ph tp →
      (Ctrl1.Ev1.relayOn Ctrl1.PIN_AB (Ctrl1.DOSE_ML / Ctrl1.PUMP_ML_PER_SEC) ∈
        (Ctrl1.control_once nIter s1 s2 sw (fun _ => none) (fun _ => none) reads).1 ↔
        ec < Ctrl1.EC_MIN) ∧
      (Ctrl1.Ev1.inject "AB" Ctrl1.DOSE_ML (Ctrl1.DOSE_ML / Ctrl1.PUMP_ML_PER_SEC) ∈
        (Ctrl1.control_once nIter s1 s2 sw (fun _ => none) (fun _ => none) reads).1 ↔
        ec < Ctrl1.EC_MIN) ∧
      (Ctrl1.Ev1.relayOn Ctrl1.PIN_ACID (Ctrl1.DOSE_ML / Ctrl1.PUMP_ML_PER_SEC) ∈
        (Ctrl1.control_once nIter s1 s2 sw (fun _ => none) (fun _ => none) reads).1 ↔
        Ctrl1.PH_MAX ≤ ph) ∧
      (Ctrl1.Ev1.inject "Acid" Ctrl1.DOSE_ML (Ctrl1.DOSE_ML / Ctrl1.PUMP_ML_PER_SEC) ∈
        (Ctrl1.control_once nIter s1 s2 sw (fun _ => none) (fun _ => none) reads).1 ↔
        Ctrl1.PH_MAX ≤ ph) ∧
      (Ctrl1.control_once nIter s1 s2 sw (fun _ => none) (fun _ => none) reads).2 = "OK") := by
  constructor
  · intro ec ph sAB sAcid
    by_cases hab : ec ≤ Ctrl2.EC_MIN
    · cases ph with
      | none => simp [Ctrl2.dose_phase, Ctrl2.run_pump, pollAborts_none, hab,
          Ctrl2.TOPIC_AB, Ctrl2.TOPIC_ACID]
      | some p =>
        by_cases hp : Ctrl2.PH_MAX ≤ p
        · simp [Ctrl2.dose_phase, Ctrl2.run_pump, pollAborts_none, hab, hp,
            Ctrl2.TOPIC_AB, Ctrl2.TOPIC_ACID]
        · simp [Ctrl2.dose_phase, Ctrl2.run_pump, pollAborts_none, hab, hp,
            Ctrl2.TOPIC_AB, Ctrl2.TOPIC_ACID]
    · cases ph with
      | none => simp [Ctrl2.dose_phase, Ctrl2.run_pump, pollAborts_none, hab,
          Ctrl2.TOPIC_AB, Ctrl2.TOPIC_ACID]
      | some p =>
        by_cases hp : Ctrl2.PH_MAX ≤ p
        · simp [Ctrl2.dose_phase, Ctrl2.run_pump, pollAborts_none, hab, hp,
            Ctrl2.TOPIC_AB, Ctrl2.TOPIC_ACID]
        · simp [Ctrl2.dose_phase, Ctrl2.run_pump, pollAborts_none, hab, hp,
            Ctrl2.TOPIC_AB, Ctrl2.TOPIC_ACID]
  · intro nIter s1 s2 sw reads ec ph tp havg
    have hOn := relayOn_not_mem_avg nIter sw reads
    have hInj := inject_not_mem_avg nIter sw reads
    simp only [Ctrl1.control_once, havg]
    by_cases hec : ec < Ctrl1.EC_MIN
    · by_cases hph : Ctrl1.PH_MAX ≤ ph
      · simp [Ctrl1.run_pump, pollAborts_none, hec, hph, hOn, hInj,
          Ctrl1.PIN_AB, Ctrl1.PIN_ACID]
      · simp [Ctrl1.run_pump, pollAborts_none, hec, hph, hOn, hInj,
          Ctrl1.PIN_AB, Ctrl1.PIN_ACID]
    · by_cases hph : Ctrl1.PH_MAX ≤ ph
      · simp [Ctrl1.run_pump, pollAborts_none, hec, hph, hOn, hInj,
          Ctrl1.PIN_AB, Ctrl1.PIN_ACID]
      · simp [Ctrl1.run_pump, pollAborts_none, hec, hph, hOn, hInj,
          Ctrl1.PIN_AB, Ctrl1.PIN_ACID]

/-- C1 witness: the amended rules applied at representative (1, 7) for
Dist_2 (both rules fire) and at an averaging run returning (0.5, 5.71, 20)
for Dist_1 (AB fires, acid does not). -/
theorem C1_threshold_rules_witness :
    ((Ctrl2.PEv.on Ctrl2.TOPIC_AB (Ctrl2.DOSE_ML / Ctrl2.PUMP_ML_PER_SEC) ∈
        (Ctrl2.dose_phase 1 (some 7) 0 0 (fun _ => none) (fun _ => none)).1 ↔
        (1 : ℚ) ≤ Ctrl2.EC_MIN) ∧
      (Ctrl2.PEv.log "AB" Ctrl2.DOSE_ML (Ctrl2.DOSE_ML / Ctrl2.PUMP_ML_PER_SEC) ∈
        (Ctrl2.dose_phase 1 (some 7) 0 0 (fun _ => none) (fun _ => none)).1 ↔
        (1 : ℚ) ≤ Ctrl2.EC_MIN) ∧
      (Ctrl2.PEv.on Ctrl2.TOPIC_ACID (Ctrl2.DOSE_ML / Ctrl2.PUMP_ML_PER_SEC) ∈
        (Ctrl2.dose_phase 1 (some 7) 0 0 (fun _ => none) (fun _ => none)).1 ↔
        (∃ p, (some (7 : ℚ)) = some p ∧ Ctrl2.PH_MAX ≤ p)) ∧
      (Ctrl2.dose_phase 1 (some 7) 0 0 (fun _ => none) (fun _ => none)).2 = "OK") ∧
    ((Ctrl1.Ev1.relayOn Ctrl1.PIN_AB (Ctrl1.DOSE_ML / Ctrl1.PUMP_ML_PER_SEC) ∈
        (Ctrl1.control_once 1 0 0 (fun _ => none) (fun _ => none) (fun _ => none)
          (fun _ => some (1/2, 6, 20))).1 ↔ (1/2 : ℚ) < Ctrl1.EC_MIN) ∧
      (Ctrl1.Ev1.inject "AB" Ctrl1.DOSE_ML (Ctrl1.DOSE_ML / Ctrl1.PUMP_ML_PER_SEC) ∈
        (Ctrl1.control_once 1 0 0 (fun _ => none) (fun _ => none) (fun _ => none)
          (fun _ => some (1/2, 6, 20))).1 ↔ (1/2 : ℚ) < Ctrl1.EC_MIN) ∧
      (Ctrl1.Ev1.relayOn Ctrl1.PIN_ACID (Ctrl1.DOSE_ML / Ctrl1.PUMP_ML_PER_SEC) ∈
        (Ctrl1.control_once 1 0 0 (fun _ => none) (fun _ => none) (fun _ => none)
          (fun _ => some (1/2, 6, 20))).1 ↔ Ctrl1.PH_MAX ≤ (571/100 : ℚ)) ∧
      (Ctrl1.Ev1.inject "Acid" Ctrl1.DOSE_ML (Ctrl1.DOSE_ML / Ctrl1.PUMP_ML_PER_SEC) ∈
        (Ctrl1.control_once 1 0 0 (fun _ => none) (fun _ => none) (fun _ => none)
          (fun _ => some (1/2, 6, 20))).1 ↔ Ctrl1.PH_MAX ≤ (571/100 : ℚ)) ∧
      (Ctrl1.control_once 1 0 0 (fun _ => none) (fun _ => none) (fun _ => none)
        (fun _ => some (1/2, 6, 20))).2 = "OK") :=
  ⟨C1_threshold_rules.1 1 (some 7) 0 0,
   C1_threshold_rules.2 1 0 0 (fun _ => none) (fun _ => some (1/2, 6, 20))
     (1/2) (571/100) 20 (by decide)⟩

/-- C5: a STOP read during the timed dose wait of EITHER pump aborts the
wait, forces the dosing actuator off (the finally branch) and then both
actuators off (force_all_off / force_pumps_off), makes the cycle return
the STOP outcome, and appends no dose record for the interrupted dose —
in the Dist_2 controller (run_pump / control_once_direct) and in the
Dist_1 controller (run_pump / control_once) alike.  The first two parts
cover a STOP during the AB-pump wait; the last two cover a STOP during
the acid-pump wait, where a dose record for an already-completed AB dose
is retained while no record is appended for the interrupted acid dose.
A wait is aborted when some poll inside the discretized duration reads
the stop value. -/
theorem C5_stop_aborts_dose :
    (∀ (ec : ℚ) (ph : Option ℚ) (sAB sAcid : ℕ) (rdAB rdAcid : ℕ → Option Bool),
      ec ≤ Ctrl2.EC_MIN → pollAborts sAB rdAB = true →
      Ctrl2.dose_phase ec ph sAB sAcid rdAB rdAcid =
        ([Ctrl2.PEv.on Ctrl2.TOPIC_AB (Ctrl2.DOSE_ML / Ctrl2.PUMP_ML_PER_SEC),
          Ctrl2.PEv.off Ctrl2.TOPIC_AB, Ctrl2.PEv.off Ctrl2.TOPIC_AB,
          Ctrl2.PEv.off Ctrl2.TOPIC_ACID], "STOP") ∧
      ∀ (dev : String) (ml d : ℚ),
        Ctrl2.PEv.log dev ml d ∉ (Ctrl2.dose_phase ec ph sAB sAcid rdAB rdAcid).1) ∧
    (∀ (nIter s1 s2 : ℕ) (sw rd1 rd2 : ℕ → Option Bool)
      (reads : ℕ → Option (ℚ × ℚ × ℚ)) (ec ph tp : ℚ),
      (Ctrl1.average_ec_ph_temp nIter sw reads).2 = .ok ec ph tp →
      ec < Ctrl1.EC_MIN → pollAborts s1 rd1 = true →
      Ctrl1.control_once nIter s1 s2 sw rd1 rd2 reads =
        (Ctrl1.Ev1.acquire :: (Ctrl1.average_ec_ph_temp nIter sw reads).1 ++
          [Ctrl1.Ev1.row,
           Ctrl1.Ev1.relayOn Ctrl1.PIN_AB (Ctrl1.DOSE_ML / Ctrl1.PUMP_ML_PER_SEC),
           Ctrl1.Ev1.relayOff Ctrl1.PIN_AB, Ctrl1.Ev1.relayOff Ctrl1.PIN_AB,
           Ctrl1.Ev1.relayOff Ctrl1.PIN_ACID, Ctrl1.Ev1.release], "STOP") ∧
      ∀ (dev : String) (ml d : ℚ),
        Ctrl1.Ev1.inject dev ml d ∉
          (Ctrl1.control_once nIter s1 s2 sw rd1 rd2 reads).1) ∧
    (∀ (ec p : ℚ) (sAB sAcid : ℕ) (rdAB rdAcid : ℕ → Option Bool),
      Ctrl2.PH_MAX ≤ p → pollAborts sAB rdAB = false →
      pollAborts sAcid rdAcid = true →
      Ctrl2.dose_phase ec (some p) sAB sAcid rdAB rdAcid =
        ((if ec ≤ Ctrl2.EC_MIN then
            [Ctrl2.PEv.on Ctrl2.TOPIC_AB (Ctrl2.DOSE_ML / Ctrl2.PUMP_ML_PER_SEC),
             Ctrl2.PEv.off Ctrl2.TOPIC_AB,
             Ctrl2.PEv.log "AB" Ctrl2.DOSE_ML (Ctrl2.DOSE_ML / Ctrl2.PUMP_ML_PER_SEC)]
          else []) ++
          [Ctrl2.PEv.on Ctrl2.TOPIC_ACID (Ctrl2.DOSE_ML / Ctrl2.PUMP_ML_PER_SEC),
           Ctrl2.PEv.off Ctrl2.TOPIC_ACID, Ctrl2.PEv.off Ctrl2.TOPIC_AB,
           Ctrl2.PEv.off Ctrl2.TOPIC_ACID], "STOP") ∧
      (∀ (ml d : ℚ),
        Ctrl2.PEv.log "Acid" ml d ∉
          (Ctrl2.dose_phase ec (some p) sAB sAcid rdAB rdAcid).1) ∧
      (ec ≤ Ctrl2.EC_MIN →
        Ctrl2.PEv.log "AB" Ctrl2.DOSE_ML (Ctrl2.DOSE_ML / Ctrl2.PUMP_ML_PER_SEC) ∈
          (Ctrl2.dose_phase ec (some p) sAB sAcid rdAB rdAcid).1)) ∧
    (∀ (nIter s1 s2 : ℕ) (sw rd1 rd2 : ℕ → Option Bool)
      (reads : ℕ → Option (ℚ × ℚ × ℚ)) (ec ph tp : ℚ),
      (Ctrl1.average_ec_ph_temp nIter sw reads).2 = .ok ec ph tp →
      Ctrl1.PH_MAX ≤ ph → pollAborts s1 rd1 = false →
      pollAborts s2 rd2 = true →
      Ctrl1.control_once nIter s1 s2 sw rd1 rd2 reads =
        (Ctrl1.Ev1.acquire :: (Ctrl1.average_ec_ph_temp nIter sw reads).1 ++
          [Ctrl1.Ev1.row] ++
          (if ec < Ctrl1.EC_MIN then
            [Ctrl1.Ev1.relayOn Ctrl1.PIN_AB (Ctrl1.DOSE_ML / Ctrl1.PUMP_ML_PER_SEC),
             Ctrl1.Ev1.relayOff Ctrl1.PIN_AB,
             Ctrl1.Ev1.inject "AB" Ctrl1.DOSE_ML (Ctrl1.DOSE_ML / Ctrl1.PUMP_ML_PER_SEC)]
          else []) ++
          [Ctrl1.Ev1.relayOn Ctrl1.PIN_ACID (Ctrl1.DOSE_ML / Ctrl1.PUMP_ML_PER_SEC),
           Ctrl1.Ev1.relayOff Ctrl1.PIN_ACID, Ctrl1.Ev1.relayOff Ctrl1.PIN_AB,
           Ctrl1.Ev1.relayOff Ctrl1.PIN_ACID, Ctrl1.Ev1.release], "STOP") ∧
      (∀ (ml d : ℚ),
        Ctrl1.Ev1.inject "Acid" ml d ∉
          (Ctrl1.control_once nIter s1 s2 sw rd1 rd2 reads).1) ∧
      (ec < Ctrl1.EC_MIN →
        Ctrl1.Ev1.inject "AB" Ctrl1.DOSE_ML (Ctrl1.DOSE_ML / Ctrl1.PUMP_ML_PER_SEC) ∈
          (Ctrl1.control_once nIter s1 s2 sw rd1 rd2 reads).1)) := by
  refine ⟨?_, ?_, ?_, ?_⟩
  · intro ec ph sAB sAcid rdAB rdAcid hab habort
    have heq : Ctrl2.dose_phase ec ph sAB sAcid rdAB rdAcid =
        ([Ctrl2.PEv.on Ctrl2.TOPIC_AB (Ctrl2.DOSE_ML / Ctrl2.PUMP_ML_PER_SEC),
          Ctrl2.PEv.off Ctrl2.TOPIC_AB, Ctrl2.PEv.off Ctrl2.TOPIC_AB,
          Ctrl2.PEv.off Ctrl2.TOPIC_ACID], "STOP") := by
      simp [Ctrl2.dose_phase, Ctrl2.run_pump, hab, habort, Ctrl2.force_all_off_evs]
    refine ⟨heq, ?_⟩
    intro dev ml d
    rw [heq]
    simp
  · intro nIter s1 s2 sw rd1 rd2 reads ec ph tp havg hec habort
    have heq : Ctrl1.control_once nIter s1 s2 sw rd1 rd2 reads =
        (Ctrl1.Ev1.acquire :: (Ctrl1.average_ec_ph_temp nIter sw reads).1 ++
          [Ctrl1.Ev1.row,
           Ctrl1.Ev1.relayOn Ctrl1.PIN_AB (Ctrl1.DOSE_ML / Ctrl1.PUMP_ML_PER_SEC),
           Ctrl1.Ev1.relayOff Ctrl1.PIN_AB, Ctrl1.Ev1.relayOff Ctrl1.PIN_AB,
           Ctrl1.Ev1.relayOff Ctrl1.PIN_ACID, Ctrl1.Ev1.release], "STOP") := by
      simp only [Ctrl1.control_once, havg]
      simp [Ctrl1.run_pump, hec, habort]
    refine ⟨heq, ?_⟩
    intro dev ml d
    rw [heq]
    simp [inject_not_mem_avg nIter sw reads dev ml d]
  · intro ec p sAB sAcid rdAB rdAcid hp hnoab habort
    have heq : Ctrl2.dose_phase ec (some p) sAB sAcid rdAB rdAcid =
        ((if ec ≤ Ctrl2.EC_MIN then
            [Ctrl2.PEv.on Ctrl2.TOPIC_AB (Ctrl2.DOSE_ML / Ctrl2.PUMP_ML_PER_SEC),
             Ctrl2.PEv.off Ctrl2.TOPIC_AB,
             Ctrl2.PEv.log "AB" Ctrl2.DOSE_ML (Ctrl2.DOSE_ML / Ctrl2.PUMP_ML_PER_SEC)]
          else []) ++
          [Ctrl2.PEv.on Ctrl2.TOPIC_ACID (Ctrl2.DOSE_ML / Ctrl2.PUMP_ML_PER_SEC),
           Ctrl2.PEv.off Ctrl2.TOPIC_ACID, Ctrl2.PEv.off Ctrl2.TOPIC_AB,
           Ctrl2.PEv.off Ctrl2.TOPIC_ACID], "STOP") := by
      by_cases hab : ec ≤ Ctrl2.EC_MIN <;>
        simp [Ctrl2.dose_phase, Ctrl2.run_pump, hab, hp, hnoab, habort,
          Ctrl2.force_all_off_evs]
    refine ⟨heq, ?_, ?_⟩
    · intro ml d
      rw [heq]
      by_cases hab : ec ≤ Ctrl2.EC_MIN <;> simp [hab]
    · intro hab
      rw [heq]
      simp [hab]
  · intro nIter s1 s2 sw rd1 rd2 reads ec ph tp havg hph hnoab habort
    have heq : Ctrl1.control_once nIter s1 s2 sw rd1 rd2 reads =
        (Ctrl1.Ev1.acquire :: (Ctrl1.average_ec_ph_temp nIter sw reads).1 ++
          [Ctrl1.Ev1.row] ++
          (if ec < Ctrl1.EC_MIN then
            [Ctrl1.Ev1.relayOn Ctrl1.PIN_AB (Ctrl1.DOSE_ML / Ctrl1.PUMP_ML_PER_SEC),
             Ctrl1.Ev1.relayOff Ctrl1.PIN_AB,
             Ctrl1.Ev1.inject "AB" Ctrl1.DOSE_ML (Ctrl1.DOSE_ML / Ctrl1.PUMP_ML_PER_SEC)]
          else []) ++
          [Ctrl1.Ev1.relayOn Ctrl1.PIN_ACID (Ctrl1.DOSE_ML / Ctrl1.PUMP_ML_PER_SEC),
           Ctrl1.Ev1.relayOff Ctrl1.PIN_ACID, Ctrl1.Ev1.relayOff Ctrl1.PIN_AB,
           Ctrl1.Ev1.relayOff Ctrl1.PIN_ACID, Ctrl1.Ev1.release], "STOP") := by
      simp only [Ctrl1.control_once, havg]
      by_cases hec : ec < Ctrl1.EC_MIN <;>
        simp [Ctrl1.run_pump, hec, hph, hnoab, habort]
    refine ⟨heq, ?_, ?_⟩
    · intro ml d
      rw [heq]
      by_cases hec : ec < Ctrl1.EC_MIN <;>
        simp [hec, inject_not_mem_avg nIter sw reads "Acid" ml d]
    · intro hec
      rw [heq]
      simp [hec]

/-- C5 witness: the AB-wait abort applied at representative EC 1 for
Dist_2 and at an averaging run returning (0.5, 5.71, 20) for Dist_1, and
the acid-wait abort applied at (EC 1, pH 7) for Dist_2 and at an
averaging run returning (0.5, 6.7, 20) for Dist_1 — in both acid cases
the AB dose completes first and keeps its record while the interrupted
acid dose is not logged.  Each abort reads the stop value at the third
50 ms poll of a 100-step wait. -/
theorem C5_stop_aborts_dose_witness :
    (Ctrl2.dose_phase 1 (some 7) 100 100
        (fun i => if i = 2 then some false else none) (fun _ => none) =
      ([Ctrl2.PEv.on Ctrl2.TOPIC_AB (Ctrl2.DOSE_ML / Ctrl2.PUMP_ML_PER_SEC),
        Ctrl2.PEv.off Ctrl2.TOPIC_AB, Ctrl2.PEv.off Ctrl2.TOPIC_AB,
        Ctrl2.PEv.off Ctrl2.TOPIC_ACID], "STOP")) ∧
    (Ctrl1.control_once 1 100 100 (fun _ => none)
        (fun i => if i = 2 then some false else none) (fun _ => none)
        (fun _ => some (1/2, 6, 20)) =
      (Ctrl1.Ev1.acquire :: (Ctrl1.average_ec_ph_temp 1 (fun _ => none)
          (fun _ => some (1/2, 6, 20))).1 ++
        [Ctrl1.Ev1.row,
         Ctrl1.Ev1.relayOn Ctrl1.PIN_AB (Ctrl1.DOSE_ML / Ctrl1.PUMP_ML_PER_SEC),
         Ctrl1.Ev1.relayOff Ctrl1.PIN_AB, Ctrl1.Ev1.relayOff Ctrl1.PIN_AB,
         Ctrl1.Ev1.relayOff Ctrl1.PIN_ACID, Ctrl1.Ev1.release], "STOP")) ∧
    (Ctrl2.dose_phase 1 (some 7) 0 100 (fun _ => none)
        (fun i => if i = 2 then some false else none) =
      ((if (1 : ℚ) ≤ Ctrl2.EC_MIN then
          [Ctrl2.PEv.on Ctrl2.TOPIC_AB (Ctrl2.DOSE_ML / Ctrl2.PUMP_ML_PER_SEC),
           Ctrl2.PEv.off Ctrl2.TOPIC_AB,
           Ctrl2.PEv.log "AB" Ctrl2.DOSE_ML (Ctrl2.DOSE_ML / Ctrl2.PUMP_ML_PER_SEC)]
        else []) ++
        [Ctrl2.PEv.on Ctrl2.TOPIC_ACID (Ctrl2.DOSE_ML / Ctrl2.PUMP_ML_PER_SEC),
         Ctrl2.PEv.off Ctrl2.TOPIC_ACID, Ctrl2.PEv.off Ctrl2.TOPIC_AB,
         Ctrl2.PEv.off Ctrl2.TOPIC_ACID], "STOP")) ∧
    (∀ (ml d : ℚ),
      Ctrl2.PEv.log "Acid" ml d ∉
        (Ctrl2.dose_phase 1 (some 7) 0 100 (fun _ => none)
          (fun i => if i = 2 then some false else none)).1) ∧
    (Ctrl1.Ev1.inject "AB" Ctrl1.DOSE_ML (Ctrl1.DOSE_ML / Ctrl1.PUMP_ML_PER_SEC) ∈
      (Ctrl1.control_once 1 0 100 (fun _ => none) (fun _ => none)
        (fun i => if i = 2 then some false else none)
        (fun _ => some (1/2, 7, 20))).1) ∧
    (∀ (ml d : ℚ),
      Ctrl1.Ev1.inject "Acid" ml d ∉
        (Ctrl1.control_once 1 0 100 (fun _ => none) (fun _ => none)
          (fun i => if i = 2 then some false else none)
          (fun _ => some (1/2, 7, 20))).1) :=
  ⟨(C5_stop_aborts_dose.1 1 (some 7) 100 100
      (fun i => if i = 2 then some false else none) (fun _ => none)
      (by decide) (by decide)).1,
   (C5_stop_aborts_dose.2.1 1 100 100 (fun _ => none)
      (fun i => if i = 2 then some false else none) (fun _ => none)
      (fun _ => some (1/2, 6, 20)) (1/2) (571/100) 20
      (by decide) (by decide) (by decide)).1,
   (C5_stop_aborts_dose.2.2.1 1 7 0 100 (fun _ => none)
      (fun i => if i = 2 then some false else none)
      (by decide) (by decide) (by decide)).1,
   (C5_stop_aborts_dose.2.2.1 1 7 0 100 (fun _ => none)
      (fun i => if i = 2 then some false else none)
      (by decide) (by decide) (by decide)).2.1,
   (C5_stop_aborts_dose.2.2.2 1 0 100 (fun _ => none) (fun _ => none)
      (fun i => if i = 2 then some false else none)
      (fun _ => some (1/2, 7, 20)) (1/2) (67/10) 20
      (by decide) (by decide) (by decide) (by decide)).2.2 (by decide),
   (C5_stop_aborts_dose.2.2.2 1 0 100 (fun _ => none) (fun _ => none)
      (fun i => if i = 2 then some false else none)
      (fun _ => some (1/2, 7, 20)) (1/2) (67/10) 20
      (by decide) (by decide) (by decide) (by decide)).2.1⟩

theorem chanContribL_length (att : ℕ → ℕ → Ctrl2.Att)
    (pick : Option ℚ × Option ℚ × Option ℚ → Option ℚ) (lo hi : ℚ) :
    ∀ l : List ℕ, (Ctrl2.chanContribL att pick lo hi l).length =
      l.countP (Ctrl2.read_valid att pick lo hi) := by
  intro l
  induction l with
  | nil => rfl
  | cons i rest ih =>
    have hhead : (match (Ctrl2.request_once_locked i (att i)).2 with
        | some t => if Ctrl2.valid_range (pick t) lo hi then [(pick t).getD 0] else []
        | none => ([] : List ℚ)).length =
        (if Ctrl2.read_valid att pick lo hi i = true then 1 else 0) := by
      unfold Ctrl2.read_valid
      rcases hr : (Ctrl2.request_once_locked i (att i)).2 with _ | t
      · simp
      · simp only []
        split <;> simp
    simp only [Ctrl2.chanContribL, List.length_append, ih, List.countP_cons, hhead]
    omega

theorem rr3_go_no_stop (sw : ℕ → Option Bool) (att : ℕ → ℕ → Ctrl2.Att) :
    ∀ (fuel i : ℕ) (acc : List ℚ × List ℚ × List ℚ),
      (∀ j, j < fuel → sw (i + j) ≠ some false) →
      (Ctrl2.rr3_go sw att fuel i acc).2 =
        Ctrl2.finalize
          (acc.1 ++ Ctrl2.chanContribL att (fun t => t.1)
            Ctrl2.VALID_EC_MIN Ctrl2.VALID_EC_MAX (List.range' i fuel))
          (acc.2.1 ++ Ctrl2.chanContribL att (fun t => t.2.1)
            Ctrl2.VALID_PH_MIN Ctrl2.VALID_PH_MAX (List.range' i fuel))
          (acc.2.2 ++ Ctrl2.chanContribL att (fun t => t.2.2)
            Ctrl2.VALID_TP_MIN Ctrl2.VALID_TP_MAX (List.range' i fuel)) := by
  intro fuel
  induction fuel with
  | zero =>
    intro i acc h
    obtain ⟨ecs, phs, tps⟩ := acc
    simp [Ctrl2.rr3_go, Ctrl2.chanContribL]
  | succ n ih =>
    intro i acc h
    obtain ⟨ecs, phs, tps⟩ := acc
    have hsw : ¬(sw i = some false) := by
      have := h 0 (by omega)
      simpa using this
    have hshift : ∀ j, j < n → sw (i + 1 + j) ≠ some false := by
      intro j hj
      have := h (j + 1) (by omega)
      simpa [Nat.add_assoc, Nat.add_comm 1 j] using this
    rw [List.range'_succ]
    rcases hr : (Ctrl2.request_once_locked i (att i)).2 with _ | t
    · simp only [Ctrl2.rr3_go, hsw, if_false, hr]
      rw [ih (i + 1) (ecs, phs, tps) hshift]
      simp [Ctrl2.chanContribL, hr]
    · simp only [Ctrl2.rr3_go, hsw, if_false, hr]
      rw [ih (i + 1) _ hshift]
      simp [Ctrl2.chanContribL, hr, List.append_assoc]

theorem finalize_fail_iff (e p t : List ℚ) :
    Ctrl2.finalize e p t = .fail ↔ (e.length < 2 ∨ t.length < 2) := by
  unfold Ctrl2.finalize
  split
  · simp_all
  · simp_all

/-- C10: in the median-of-3 strategy of
src/controllers/Dist_2_EC_pH_auto_control.py a missing or invalid pH
never causes a FAIL: when no STOP is read, read_representative_3 returns
FAIL iff fewer than 2 of the READ_N reads yield a range-valid EC value or
fewer than 2 yield a range-valid temperature value (pH plays no role);
and when the pH representative is None the acid rule is skipped while the
EC rule still applies. -/
theorem C10_median3_fail_condition :
    (∀ (sw : ℕ → Option Bool) (att : ℕ → ℕ → Ctrl2.Att),
      (∀ i, i < Ctrl2.READ_N → sw i ≠ some false) →
      ((Ctrl2.read_representative_3 sw att).2 = .fail ↔
        ((List.range Ctrl2.READ_N).countP
            (Ctrl2.read_valid att (fun t => t.1)
              Ctrl2.VALID_EC_MIN Ctrl2.VALID_EC_MAX) < 2 ∨
         (List.range Ctrl2.READ_N).countP
            (Ctrl2.read_valid att (fun t => t.2.2)
              Ctrl2.VALID_TP_MIN Ctrl2.VALID_TP_MAX) < 2))) ∧
    (∀ (ec : ℚ) (sAB sAcid : ℕ) (rdAB rdAcid : ℕ → Option Bool) (d : ℚ),
      Ctrl2.PEv.on Ctrl2.TOPIC_ACID d ∉
        (Ctrl2.dose_phase ec none sAB sAcid rdAB rdAcid).1) ∧
    (∀ (ec : ℚ) (sAB sAcid : ℕ),
      Ctrl2.PEv.on Ctrl2.TOPIC_AB (Ctrl2.DOSE_ML / Ctrl2.PUMP_ML_PER_SEC) ∈
        (Ctrl2.dose_phase ec none sAB sAcid (fun _ => none) (fun _ => none)).1 ↔
        ec ≤ Ctrl2.EC_MIN) := by
  refine ⟨?_, ?_, ?_⟩
  · intro sw att h
    have h0 : ∀ j, j < Ctrl2.READ_N → sw (0 + j) ≠ some false := by
      intro j hj
      simpa using h j hj
    have hbody : (Ctrl2.read_representative_3 sw att).2 =
        (Ctrl2.rr3_go sw att Ctrl2.READ_N 0 ([], [], [])).2 := rfl
    rw [hbody, rr3_go_no_stop sw att Ctrl2.READ_N 0 ([], [], []) h0,
      finalize_fail_iff]
    simp [chanContribL_length, List.range_eq_range']
  · intro ec sAB sAcid rdAB rdAcid d
    by_cases hab : ec ≤ Ctrl2.EC_MIN
    · by_cases habort : pollAborts sAB rdAB = true
      · simp [Ctrl2.dose_phase, Ctrl2.run_pump, hab, habort,
          Ctrl2.force_all_off_evs, Ctrl2.TOPIC_AB, Ctrl2.TOPIC_ACID]
      · simp [Ctrl2.dose_phase, Ctrl2.run_pump, hab, habort,
          Ctrl2.force_all_off_evs, Ctrl2.TOPIC_AB, Ctrl2.TOPIC_ACID]
    · simp [Ctrl2.dose_phase, Ctrl2.run_pump, hab]
  · intro ec sAB sAcid
    by_cases hab : ec ≤ Ctrl2.EC_MIN
    · simp [Ctrl2.dose_phase, Ctrl2.run_pump, pollAborts_none, hab]
    · simp [Ctrl2.dose_phase, Ctrl2.run_pump, pollAborts_none, hab]

/-- C10 witness: the FAIL characterization applied with no stop input and
an attempt stream whose first read never succeeds while the other two
return the valid triple (1, None, 20): two valid EC and temperature
samples, so the cycle does not FAIL; plus the skipped-acid and active-EC
rules at representative EC 1 with a missing pH. -/
theorem C10_median3_fail_condition_witness :
    ((Ctrl2.read_representative_3 (fun _ => none)
        (fun i _ => if i = 0 then .noData else .ok (some 1) none (some 20))).2 = .fail ↔
      ((List.range Ctrl2.READ_N).countP
          (Ctrl2.read_valid (fun i _ => if i = 0 then .noData else .ok (some 1) none (some 20))
            (fun t => t.1) Ctrl2.VALID_EC_MIN Ctrl2.VALID_EC_MAX) < 2 ∨
       (List.range Ctrl2.READ_N).countP
          (Ctrl2.read_valid (fun i _ => if i = 0 then .noData else .ok (some 1) none (some 20))
            (fun t => t.2.2) Ctrl2.VALID_TP_MIN Ctrl2.VALID_TP_MAX) < 2)) ∧
    (Ctrl2.PEv.on Ctrl2.TOPIC_ACID 1 ∉
      (Ctrl2.dose_phase 1 none 5 5 (fun _ => none) (fun _ => none)).1) ∧
    (Ctrl2.PEv.on Ctrl2.TOPIC_AB (Ctrl2.DOSE_ML / Ctrl2.PUMP_ML_PER_SEC) ∈
      (Ctrl2.dose_phase 1 none 5 5 (fun _ => none) (fun _ => none)).1 ↔
      (1 : ℚ) ≤ Ctrl2.EC_MIN) :=
  ⟨C10_median3_fail_condition.1 (fun _ => none)
      (fun i _ => if i = 0 then .noData else .ok (some 1) none (some 20))
      (by intro i hi; simp),
   C10_median3_fail_condition.2.1 1 5 5 (fun _ => none) (fun _ => none) 1,
   C10_median3_fail_condition.2.2 1 5 5⟩

theorem bracket_props {α : Type} [DecidableEq α] (a r : α) (mid : List α)
    (hne : a ≠ r) (h : ∀ e ∈ mid, e ≠ a ∧ e ≠ r) :
    (a :: mid ++ [r]).head? = some a ∧
    (a :: mid ++ [r]).getLast? = some r ∧
    (a :: mid ++ [r]).count a = 1 ∧
    (a :: mid ++ [r]).count r = 1 := by
  have hna : a ∉ mid := fun hm => (h a hm).1 rfl
  have hnr : r ∉ mid := fun hm => (h r hm).2 rfl
  refine ⟨rfl, ?_, ?_, ?_⟩
  · show ((a :: mid) ++ [r]).getLast? = some r
    exact List.getLast?_concat _
  · show ((a :: mid) ++ [r]).count a = 1
    rw [List.count_append, List.count_cons_self, List.count_eq_zero.mpr hna]
    simp [List.count_singleton, hne]
  · show ((a :: mid) ++ [r]).count r = 1
    rw [List.count_append, List.count_cons_of_ne (Ne.symm hne),
      List.count_eq_zero.mpr hnr]
    simp [List.count_singleton]

theorem req_go_events (i : ℕ) (att : ℕ → Ctrl2.Att) :
    ∀ (fuel j : ℕ), ∀ e ∈ (Ctrl2.request_go i att fuel j).1,
      ∃ a b, e = Ctrl2.Ev.exchange a b := by
  intro fuel
  induction fuel with
  | zero => intro j e he; simp [Ctrl2.request_go] at he
  | succ n ih =>
    intro j e he
    simp only [Ctrl2.request_go] at he
    split at he
    · simp at he
      exact ⟨i, j, he⟩
    · rcases List.mem_cons.mp he with h | h
      · exact ⟨i, j, h⟩
      · exact ih (j + 1) e h

theorem rr3_go_events (sw : ℕ → Option Bool) (att : ℕ → ℕ → Ctrl2.Att) :
    ∀ (fuel i : ℕ) (acc : List ℚ × List ℚ × List ℚ),
      ∀ e ∈ (Ctrl2.rr3_go sw att fuel i acc).1,
        ∃ a b, e = Ctrl2.Ev.exchange a b := by
  intro fuel
  induction fuel with
  | zero => intro i acc e he; simp [Ctrl2.rr3_go] at he
  | succ n ih =>
    intro i acc e he
    obtain ⟨ecs, phs, tps⟩ := acc
    simp only [Ctrl2.rr3_go] at he
    split at he
    · simp at he
    · rcases List.mem_append.mp he with h | h
      · exact req_go_events i (att i) Ctrl2.RETRY_ATTEMPTS 0 e h
      · exact ih (i + 1) _ e h

theorem mid_append_ok (nIter : ℕ) (sw : ℕ → Option Bool)
    (reads : ℕ → Option (ℚ × ℚ × ℚ)) (l : List Ctrl1.Ev1)
    (hl : ∀ x ∈ l, x ≠ Ctrl1.Ev1.acquire ∧ x ≠ Ctrl1.Ev1.release) :
    ∀ e ∈ (Ctrl1.average_ec_ph_temp nIter sw reads).1 ++ l,
      e ≠ Ctrl1.Ev1.acquire ∧ e ≠ Ctrl1.Ev1.release := by
  intro e he
  rcases List.mem_append.mp he with h | h
  · obtain ⟨j, rfl⟩ := avg_events nIter sw reads e h
    exact ⟨by simp, by simp⟩
  · exact hl e h

theorem control_once_shape (nIter s1 s2 : ℕ) (sw rd1 rd2 : ℕ → Option Bool)
    (reads : ℕ → Option (ℚ × ℚ × ℚ)) :
    ∃ mid, (Ctrl1.control_once nIter s1 s2 sw rd1 rd2 reads).1 =
        Ctrl1.Ev1.acquire :: mid ++ [Ctrl1.Ev1.release] ∧
      ∀ e ∈ mid, e ≠ Ctrl1.Ev1.acquire ∧ e ≠ Ctrl1.Ev1.release := by
  have havgq : ∀ e ∈ (Ctrl1.average_ec_ph_temp nIter sw reads).1,
      e ≠ Ctrl1.Ev1.acquire ∧ e ≠ Ctrl1.Ev1.release := by
    intro e he
    obtain ⟨j, rfl⟩ := avg_events nIter sw reads e he
    exact ⟨by simp, by simp⟩
  rcases havg : (Ctrl1.average_ec_ph_temp nIter sw reads).2 with _ | _ | ⟨ec, ph, tp⟩
  · exact ⟨(Ctrl1.average_ec_ph_temp nIter sw reads).1,
      by simp [Ctrl1.control_once, havg], havgq⟩
  · exact ⟨(Ctrl1.average_ec_ph_temp nIter sw reads).1,
      by simp [Ctrl1.control_once, havg], havgq⟩
  · simp only [Ctrl1.control_once, havg]
    by_cases hec : ec < Ctrl1.EC_MIN
    · by_cases ha1 : pollAborts s1 rd1 = true
      · refine ⟨(Ctrl1.average_ec_ph_temp nIter sw reads).1 ++
          [Ctrl1.Ev1.row,
           Ctrl1.Ev1.relayOn Ctrl1.PIN_AB (Ctrl1.DOSE_ML / Ctrl1.PUMP_ML_PER_SEC),
           Ctrl1.Ev1.relayOff Ctrl1.PIN_AB, Ctrl1.Ev1.relayOff Ctrl1.PIN_AB,
           Ctrl1.Ev1.relayOff Ctrl1.PIN_ACID],
          by simp [Ctrl1.run_pump, hec, ha1],
          mid_append_ok nIter sw reads _ (by decide)⟩
      · by_cases hph : Ctrl1.PH_MAX ≤ ph
        · by_cases ha2 : pollAborts s2 rd2 = true
          · refine ⟨(Ctrl1.average_ec_ph_temp nIter sw reads).1 ++
              [Ctrl1.Ev1.row,
               Ctrl1.Ev1.relayOn Ctrl1.PIN_AB (Ctrl1.DOSE_ML / Ctrl1.PUMP_ML_PER_SEC),
               Ctrl1.Ev1.relayOff Ctrl1.PIN_AB,
               Ctrl1.Ev1.inject "AB" Ctrl1.DOSE_ML (Ctrl1.DOSE_ML / Ctrl1.PUMP_ML_PER_SEC),
               Ctrl1.Ev1.relayOn Ctrl1.PIN_ACID (Ctrl1.DOSE_ML / Ctrl1.PUMP_ML_PER_SEC),
               Ctrl1.Ev1.relayOff Ctrl1.PIN_ACID, Ctrl1.Ev1.relayOff Ctrl1.PIN_AB,
               Ctrl1.Ev1.relayOff Ctrl1.PIN_ACID],
              by simp [Ctrl1.run_pump, hec, ha1, hph, ha2],
              mid_append_ok nIter sw reads _ (by decide)⟩
          · refine ⟨(Ctrl1.average_ec_ph_temp nIter sw reads).1 ++
              [Ctrl1.Ev1.row,
               Ctrl1.Ev1.relayOn Ctrl1.PIN_AB (Ctrl1.DOSE_ML / Ctrl1.PUMP_ML_PER_SEC),
               Ctrl1.Ev1.relayOff Ctrl1.PIN_AB,
               Ctrl1.Ev1.inject "AB" Ctrl1.DOSE_ML (Ctrl1.DOSE_ML / Ctrl1.PUMP_ML_PER_SEC),
               Ctrl1.Ev1.relayOn Ctrl1.PIN_ACID (Ctrl1.DOSE_ML / Ctrl1.PUMP_ML_PER_SEC),
               Ctrl1.Ev1.relayOff Ctrl1.PIN_ACID,
               Ctrl1.Ev1.inject "Acid" Ctrl1.DOSE_ML (Ctrl1.DOSE_ML / Ctrl1.PUMP_ML_PER_SEC)],
              by simp [Ctrl1.run_pump, hec, ha1, hph, ha2],
              mid_append_ok nIter sw reads _ (by decide)⟩
        · refine ⟨(Ctrl1.average_ec_ph_temp nIter sw reads).1 ++
            [Ctrl1.Ev1.row,
             Ctrl1.Ev1.relayOn Ctrl1.PIN_AB (Ctrl1.DOSE_ML / Ctrl1.PUMP_ML_PER_SEC),
             Ctrl1.Ev1.relayOff Ctrl1.PIN_AB,
             Ctrl1.Ev1.inject "AB" Ctrl1.DOSE_ML (Ctrl1.DOSE_ML / Ctrl1.PUMP_ML_PER_SEC)],
            by simp [Ctrl1.run_pump, hec, ha1, hph],
            mid_append_ok nIter sw reads _ (by decide)⟩
    · by_cases hph : Ctrl1.PH_MAX ≤ ph
      · by_cases ha2 : pollAborts s2 rd2 = true
        · refine ⟨(Ctrl1.average_ec_ph_temp nIter sw reads).1 ++
            [Ctrl1.Ev1.row,
             Ctrl1.Ev1.relayOn Ctrl1.PIN_ACID (Ctrl1.DOSE_ML / Ctrl1.PUMP_ML_PER_SEC),
             Ctrl1.Ev1.relayOff Ctrl1.PIN_ACID, Ctrl1.Ev1.relayOff Ctrl1.PIN_AB,
             Ctrl1.Ev1.relayOff Ctrl1.PIN_ACID],
            by simp [Ctrl1.run_pump, hec, hph, ha2],
            mid_append_ok nIter sw reads _ (by decide)⟩
        · refine ⟨(Ctrl1.average_ec_ph_temp nIter sw reads).1 ++
            [Ctrl1.Ev1.row,
             Ctrl1.Ev1.relayOn Ctrl1.PIN_ACID (Ctrl1.DOSE_ML / Ctrl1.PUMP_ML_PER_SEC),
             Ctrl1.Ev1.relayOff Ctrl1.PIN_ACID,
             Ctrl1.Ev1.inject "Acid" Ctrl1.DOSE_ML (Ctrl1.DOSE_ML / Ctrl1.PUMP_ML_PER_SEC)],
            by simp [Ctrl1.run_pump, hec, hph, ha2],
            mid_append_ok nIter sw reads _ (by decide)⟩
      · refine ⟨(Ctrl1.average_ec_ph_temp nIter sw reads).1 ++ [Ctrl1.Ev1.row],
          by simp [Ctrl1.run_pump, hec, hph],
          mid_append_ok nIter sw reads _ (by decide)⟩

/-- C6: every acquisition brackets its transport exchanges in exactly one
bus-lock acquire/release pair, released on every exit path.  For
read_representative_3 of Dist_2 the trace starts with the flock acquire,
ends with the flock release of the finally block, contains exactly one of
each, and everything in between is a serial exchange of the read-retry
sequence; for control_once of Dist_1 the trace likewise starts with the
acquire and ends with the single release, on every path (STOP, FAIL,
dosing or not, aborted or not). -/
theorem C6_bus_lock_bracket :
    (∀ (sw : ℕ → Option Bool) (att : ℕ → ℕ → Ctrl2.Att),
      (Ctrl2.read_representative_3 sw att).1.head? = some Ctrl2.Ev.acquire ∧
      (Ctrl2.read_representative_3 sw att).1.getLast? = some Ctrl2.Ev.release ∧
      (Ctrl2.read_representative_3 sw att).1.count Ctrl2.Ev.acquire = 1 ∧
      (Ctrl2.read_representative_3 sw att).1.count Ctrl2.Ev.release = 1 ∧
      ∀ e ∈ (Ctrl2.read_representative_3 sw att).1,
        e = Ctrl2.Ev.acquire ∨ e = Ctrl2.Ev.release ∨
          ∃ a b, e = Ctrl2.Ev.exchange a b) ∧
    (∀ (nIter s1 s2 : ℕ) (sw rd1 rd2 : ℕ → Option Bool)
      (reads : ℕ → Option (ℚ × ℚ × ℚ)),
      (Ctrl1.control_once nIter s1 s2 sw rd1 rd2 reads).1.head? =
        some Ctrl1.Ev1.acquire ∧
      (Ctrl1.control_once nIter s1 s2 sw rd1 rd2 reads).1.getLast? =
        some Ctrl1.Ev1.release ∧
      (Ctrl1.control_once nIter s1 s2 sw rd1 rd2 reads).1.count
        Ctrl1.Ev1.acquire = 1 ∧
      (Ctrl1.control_once nIter s1 s2 sw rd1 rd2 reads).1.count
        Ctrl1.Ev1.release = 1) := by
  constructor
  · intro sw att
    have hmid : ∀ e ∈ (Ctrl2.rr3_go sw att Ctrl2.READ_N 0 ([], [], [])).1,
        e ≠ Ctrl2.Ev.acquire ∧ e ≠ Ctrl2.Ev.release := by
      intro e he
      obtain ⟨a, b, rfl⟩ := rr3_go_events sw att Ctrl2.READ_N 0 ([], [], []) e he
      exact ⟨by simp, by simp⟩
    have ht : (Ctrl2.read_representative_3 sw att).1 =
        Ctrl2.Ev.acquire :: (Ctrl2.rr3_go sw att Ctrl2.READ_N 0 ([], [], [])).1 ++
          [Ctrl2.Ev.release] := rfl
    have hb := bracket_props Ctrl2.Ev.acquire Ctrl2.Ev.release
      (Ctrl2.rr3_go sw att Ctrl2.READ_N 0 ([], [], [])).1 (by simp) hmid
    rw [ht]
    refine ⟨hb.1, hb.2.1, hb.2.2.1, hb.2.2.2, ?_⟩
    intro e he
    rcases List.mem_cons.mp he with rfl | he2
    · exact Or.inl rfl
    · rcases List.mem_append.mp he2 with h | h
      · obtain ⟨a, b, rfl⟩ := rr3_go_events sw att Ctrl2.READ_N 0 ([], [], []) e h
        exact Or.inr (Or.inr ⟨a, b, rfl⟩)
      · simp at h
        exact Or.inr (Or.inl h)
  · intro nIter s1 s2 sw rd1 rd2 reads
    obtain ⟨mid, hmideq, hmid⟩ := control_once_shape nIter s1 s2 sw rd1 rd2 reads
    rw [hmideq]
    exact bracket_props Ctrl1.Ev1.acquire Ctrl1.Ev1.release mid (by simp) hmid

/-- C6 witness: the bracket discipline of read_representative_3 applied
at a no-stop run with all attempts succeeding, picking out the single
acquire and release counts. -/
theorem C6_bus_lock_bracket_witness :
    ((Ctrl2.read_representative_3 (fun _ => none)
        (fun _ _ => Ctrl2.Att.ok (some 1) (some 7) (some 20))).1.count
      Ctrl2.Ev.acquire = 1) ∧
    ((Ctrl2.read_representative_3 (fun _ => none)
        (fun _ _ => Ctrl2.Att.ok (some 1) (some 7) (some 20))).1.getLast? =
      some Ctrl2.Ev.release) ∧
    ((Ctrl1.control_once 1 0 0 (fun _ => none) (fun _ => none) (fun _ => none)
        (fun _ => some (1/2, 6, 20))).1.count Ctrl1.Ev1.release = 1) :=
  ⟨((C6_bus_lock_bracket.1 (fun _ => none)
      (fun _ _ => Ctrl2.Att.ok (some 1) (some 7) (some 20)))).2.2.1,
   ((C6_bus_lock_bracket.1 (fun _ => none)
      (fun _ _ => Ctrl2.Att.ok (some 1) (some 7) (some 20)))).2.1,
   (C6_bus_lock_bracket.2 1 0 0 (fun _ => none) (fun _ => none) (fun _ => none)
      (fun _ => some (1/2, 6, 20))).2.2.2⟩

theorem getLast_cons_all_eq (u : String) :
    ∀ l : List String, (∀ c ∈ l, c = u) → (u :: l).getLast? = some u := by
  intro l
  induction l with
  | nil => intro _; rfl
  | cons c t ih =>
    intro h
    have hc : c = u := h c (by simp)
    subst hc
    rw [List.getLast?_cons_cons]
    exact ih (fun x hx => h x (by simp [hx]))

theorem bc_getLast (done rest : List String) (u : String)
    (hbc : Ctrl2.BlockContiguous (done ++ u :: rest)) (hu : u ∈ done) :
    done.getLast? = some u := by
  obtain ⟨d1, d2, rfl⟩ := List.append_of_mem hu
  have hmid : ∀ c ∈ d2, c = u := by
    apply hbc d1 d2 rest u
    simp
  rw [List.getLast?_append, getLast_cons_all_eq u d2 hmid]
  rfl

theorem loop_step_inv (done restSlots : List String) (st : Ctrl2.LoopState)
    (t : Ctrl2.Tick)
    (hbc : Ctrl2.BlockContiguous (done ++ t.slot :: restSlots))
    (hinv : Ctrl2.LoopInv done st) :
    Ctrl2.LoopInv (done ++ [t.slot]) (Ctrl2.loop_step st t) := by
  obtain ⟨hnd, hsub, hlr⟩ := hinv
  have hsub2 : ∀ s ∈ st.executed, s ∈ done ++ [t.slot] := by
    intro s hs
    exact List.mem_append_left _ (hsub s hs)
  unfold Ctrl2.loop_step
  by_cases hstop : st.stopped = true
  · simp only [hstop, if_true]
    refine ⟨hnd, hsub2, ?_⟩
    intro hf
    rw [hf] at hstop
    cases hstop
  · have hstopf : st.stopped = false := by
      simpa using hstop
    simp only [hstopf, Bool.false_eq_true, if_false]
    by_cases hsw : t.sw = some false
    · simp only [hsw, if_true]
      exact ⟨hnd, hsub2, by intro hf; simp at hf⟩
    · simp only [hsw, if_false]
      by_cases hne : some t.slot ≠ st.lastRun
      · have hnotex : t.slot ∉ st.executed := by
          intro hu'
          have hud : t.slot ∈ done := hsub _ hu'
          have hlast := bc_getLast done restSlots t.slot hbc hud
          exact hne (hlr hstopf t.slot hu' hlast).symm
        have hnd2 : (st.executed ++ [t.slot]).Nodup := by
          rw [List.nodup_append]
          refine ⟨hnd, List.nodup_singleton _, ?_⟩
          intro a ha hq
          simp only [List.mem_singleton] at hq
          exact hnotex (hq ▸ ha)
        have hsub3 : ∀ s ∈ st.executed ++ [t.slot], s ∈ done ++ [t.slot] := by
          intro s hs
          rcases List.mem_append.mp hs with h | h
          · exact hsub2 s h
          · exact List.mem_append_right _ h
        rw [if_pos hne]
        cases hres : t.res with
        | stop =>
          refine ⟨hnd2, hsub3, ?_⟩
          intro hf
          simp at hf
        | ok =>
          refine ⟨hnd2, hsub3, ?_⟩
          intro _ s hs hlastdone
          rw [List.getLast?_concat] at hlastdone
          have : s = t.slot := by
            injection hlastdone with h
            exact h.symm
          subst this
          rfl
        | fail =>
          refine ⟨hnd2, hsub3, ?_⟩
          intro _ s hs hlastdone
          rw [List.getLast?_concat] at hlastdone
          have : s = t.slot := by
            injection hlastdone with h
            exact h.symm
          subst this
          rfl
      · rw [if_neg hne]
        refine ⟨hnd, hsub2, ?_⟩
        intro hf s hs hlastdone
        rw [List.getLast?_concat] at hlastdone
        have : s = t.slot := by
          injection hlastdone with h
          exact h.symm
        subst this
        exact (by simpa using hne : some t.slot = st.lastRun).symm

theorem loop_fold_inv :
    ∀ (todo : List Ctrl2.Tick) (done : List String) (st : Ctrl2.LoopState),
      Ctrl2.BlockContiguous (done ++ todo.map Ctrl2.Tick.slot) →
      Ctrl2.LoopInv done st →
      Ctrl2.LoopInv (done ++ todo.map Ctrl2.Tick.slot)
        (todo.foldl Ctrl2.loop_step st) := by
  intro todo
  induction todo with
  | nil =>
    intro done st hbc hinv
    simpa using hinv
  | cons t rest ih =>
    intro done st hbc hinv
    have hbc0 : Ctrl2.BlockContiguous (done ++ t.slot :: rest.map Ctrl2.Tick.slot) := by
      simpa using hbc
    have hbc1 : Ctrl2.BlockContiguous
        ((done ++ [t.slot]) ++ rest.map Ctrl2.Tick.slot) := by
      simpa [List.append_assoc] using hbc0
    have hstep := loop_step_inv done (rest.map Ctrl2.Tick.slot) st t hbc0 hinv
    have hres := ih (done ++ [t.slot]) (Ctrl2.loop_step st t) hbc1 hstep
    simpa [List.append_assoc] using hres

/-- C2 counterexample: the claim says last_run_slot is set to the current
slot key regardless of whether the cycle returned OK, FAIL, or aborted,
but main_loop of src/controllers/Dist_2_EC_pH_auto_control.py breaks out
of the loop on a STOP result BEFORE the assignment: on a single tick
whose cycle aborts, the cycle ran for slot "2025010104" yet last_run_slot
is still None afterwards. -/
theorem C2_counterexample :
    (Ctrl2.run_loop [⟨none, "2025010104", .stop⟩]).executed = ["2025010104"] ∧
    (Ctrl2.run_loop [⟨none, "2025010104", .stop⟩]).stopped = true ∧
    (Ctrl2.run_loop [⟨none, "2025010104", .stop⟩]).lastRun = none := by
  refine ⟨rfl, rfl, rfl⟩

/-- C2 (amended): slot_stamp is idempotent on a cadence interval (any two
instants with the same floor to the cadence yield the same key), the main
loop executes at most one control cycle per distinct slot key over any
monotone tick trace (equal slot keys contiguous), and last_run_slot is
set to the current slot key after a cycle that returns OK or FAIL, while
a STOP result terminates the loop immediately without the assignment (so
no further cycle can fire at all). -/
theorem C2_slot_scheduling :
    (∀ (mode : String) (a b : Ctrl2.PyDateTime),
      Ctrl2.same_slot_interval mode a b →
      Ctrl2.slot_stamp mode a = Ctrl2.slot_stamp mode b) ∧
    (∀ (ts : List Ctrl2.Tick),
      Ctrl2.BlockContiguous (ts.map Ctrl2.Tick.slot) →
      ∀ s, (Ctrl2.run_loop ts).executed.count s ≤ 1) ∧
    (∀ (st : Ctrl2.LoopState) (t : Ctrl2.Tick),
      st.stopped = false → t.sw ≠ some false → some t.slot ≠ st.lastRun →
      (t.res ≠ .stop →
        (Ctrl2.loop_step st t).lastRun = some t.slot ∧
        (Ctrl2.loop_step st t).executed = st.executed ++ [t.slot] ∧
        (Ctrl2.loop_step st t).stopped = false) ∧
      (t.res = .stop →
        (Ctrl2.loop_step st t).stopped = true ∧
        (Ctrl2.loop_step st t).lastRun = st.lastRun)) := by
  refine ⟨?_, ?_, ?_⟩
  · intro mode a b h
    obtain ⟨hy, hm, hd, hrest⟩ := h
    have hymd : Ctrl2.fmtYMD (Ctrl2.replace0 a) = Ctrl2.fmtYMD (Ctrl2.replace0 b) := by
      simp [Ctrl2.fmtYMD, Ctrl2.replace0, hy, hm, hd]
    unfold Ctrl2.slot_stamp
    by_cases h30 : mode = "30min"
    · subst h30
      simp only [if_true] at hrest ⊢
      obtain ⟨hh, hmin⟩ := hrest
      rw [hymd]
      have hlt : ((Ctrl2.replace0 a).minute < 30) ↔ ((Ctrl2.replace0 b).minute < 30) := by
        simp only [Ctrl2.replace0]
        omega
      by_cases hm30 : (Ctrl2.replace0 a).minute < 30
      · rw [if_pos hm30, if_pos (hlt.mp hm30)]
        simp [Ctrl2.replace0, hh]
      · rw [if_neg hm30, if_neg (fun hc => hm30 (hlt.mpr hc))]
        simp [Ctrl2.replace0, hh]
    · by_cases h1h : mode = "1hour"
      · subst h1h
        simp only [if_neg (by decide : ¬("1hour" = "30min")), if_true] at hrest ⊢
        rw [hymd]
        simp [Ctrl2.replace0, hrest]
      · rw [if_neg h30, if_neg h1h] at hrest
        have h4 : (Ctrl2.replace0 a).hour / 4 * 4 = (Ctrl2.replace0 b).hour / 4 * 4 := by
          simp only [Ctrl2.replace0]
          omega
        simp only [if_neg h30, if_neg h1h]
        rw [hymd, h4]
  · intro ts hbc s
    have hinit : Ctrl2.LoopInv [] { lastRun := none, stopped := false, executed := [] } := by
      refine ⟨List.nodup_nil, by simp, by simp⟩
    have := loop_fold_inv ts [] _ (by simpa using hbc) hinit
    exact List.nodup_iff_count_le_one.mp this.1 s
  · intro st t hstop hsw hne
    constructor
    · intro hres
      unfold Ctrl2.loop_step
      rw [hstop]
      simp only [Bool.false_eq_true, if_false]
      rw [if_neg (by simpa using hsw), if_pos hne]
      cases hr : t.res with
      | stop => exact absurd hr hres
      | ok => exact ⟨rfl, rfl, rfl⟩
      | fail => exact ⟨rfl, rfl, rfl⟩
    · intro hres
      unfold Ctrl2.loop_step
      rw [hstop]
      simp only [Bool.false_eq_true, if_false]
      rw [if_neg (by simpa using hsw), if_pos hne, hres]
      exact ⟨rfl, rfl⟩

/-- C2 witness: idempotence applied to two instants inside the same
4-hour slot, the at-most-once property applied to a one-tick trace (its
slot list is trivially block-contiguous), and the post-cycle assignment
applied to a fresh loop state on an OK tick. -/
theorem C2_slot_scheduling_witness :
    (Ctrl2.slot_stamp "4hour" ⟨2025, 1, 1, 5, 0, 0, 0⟩ =
      Ctrl2.slot_stamp "4hour" ⟨2025, 1, 1, 6, 30, 2, 3⟩) ∧
    ((Ctrl2.run_loop [⟨none, "2025010104", .ok⟩]).executed.count "2025010104" ≤ 1) ∧
    ((Ctrl2.loop_step { lastRun := none, stopped := false, executed := [] }
        ⟨none, "2025010104", .ok⟩).lastRun = some "2025010104") := by
  refine ⟨C2_slot_scheduling.1 "4hour" ⟨2025, 1, 1, 5, 0, 0, 0⟩
      ⟨2025, 1, 1, 6, 30, 2, 3⟩ (by refine ⟨rfl, rfl, rfl, ?_⟩; decide),
    C2_slot_scheduling.2.1 [⟨none, "2025010104", .ok⟩] ?_ "2025010104",
    ((C2_slot_scheduling.2.2 { lastRun := none, stopped := false, executed := [] }
      ⟨none, "2025010104", .ok⟩ rfl (by decide) (by decide)).1 (by decide)).1⟩
  intro pre mid post a heq c hc
  have hlen := congrArg List.length heq
  simp [List.length_append] at hlen
  omega

theorem isDigit_not_ws (c : Char) (h : c.isDigit = true) :
    Parsing.isWsChar c = false := by
  have h1 : c ≠ ' ' := by intro hc; subst hc; exact absurd h (by decide)
  have h2 : c ≠ '\t' := by intro hc; subst hc; exact absurd h (by decide)
  have h3 : c ≠ '\n' := by intro hc; subst hc; exact absurd h (by decide)
  have h4 : c ≠ '\r' := by intro hc; subst hc; exact absurd h (by decide)
  have h5 : c ≠ '\x0b' := by intro hc; subst hc; exact absurd h (by decide)
  have h6 : c ≠ '\x0c' := by intro hc; subst hc; exact absurd h (by decide)
  simp [Parsing.isWsChar, h1, h2, h3, h4, h5, h6]

theorem isDigit_ne_special (c : Char) (h : c.isDigit = true) :
    c ≠ '/' ∧ c ≠ '.' ∧ c ≠ ' ' ∧ c ≠ '-' := by
  refine ⟨?_, ?_, ?_, ?_⟩ <;> (intro hc; subst hc; exact absurd h (by decide))

theorem dropWhile_eq_self_of_none (p : Char → Bool) :
    ∀ l : List Char, (∀ c ∈ l, p c = false) → l.dropWhile p = l := by
  intro l h
  cases l with
  | nil => rfl
  | cons c t =>
    rw [List.dropWhile_cons, if_neg]
    simp [h c (by simp)]

theorem takeWhile_all (p : Char → Bool) :
    ∀ l : List Char, (∀ c ∈ l, p c = true) →
      l.takeWhile p = l ∧ l.dropWhile p = [] := by
  intro l
  induction l with
  | nil => intro _; exact ⟨rfl, rfl⟩
  | cons c t ih =>
    intro h
    have hc : p c = true := h c (by simp)
    have ht := ih (fun x hx => h x (by simp [hx]))
    rw [List.takeWhile_cons, List.dropWhile_cons, if_pos hc, if_pos hc]
    exact ⟨by rw [ht.1], ht.2⟩

theorem takeWhile_none (p : Char → Bool) :
    ∀ l : List Char, (∀ c ∈ l, p c = false) →
      l.takeWhile p = [] ∧ l.dropWhile p = l := by
  intro l h
  cases l with
  | nil => exact ⟨rfl, rfl⟩
  | cons c t =>
    have hc : p c = false := h c (by simp)
    rw [List.takeWhile_cons, List.dropWhile_cons, if_neg (by simp [hc]),
      if_neg (by simp [hc])]
    exact ⟨rfl, rfl⟩

theorem takeWhile_append_stop (p : Char → Bool) :
    ∀ (l : List Char) (x : Char) (r : List Char),
      (∀ c ∈ l, p c = true) → p x = false →
      (l ++ x :: r).takeWhile p = l ∧ (l ++ x :: r).dropWhile p = x :: r := by
  intro l
  induction l with
  | nil =>
    intro x r _ hx
    simp only [List.nil_append]
    rw [List.takeWhile_cons, List.dropWhile_cons, if_neg (by simp [hx]),
      if_neg (by simp [hx])]
    exact ⟨rfl, rfl⟩
  | cons c t ih =>
    intro x r h hx
    have hc : p c = true := h c (by simp)
    have ht := ih x r (fun y hy => h y (by simp [hy])) hx
    simp only [List.cons_append]
    rw [List.takeWhile_cons, List.dropWhile_cons, if_pos hc, if_pos hc]
    exact ⟨by rw [ht.1], ht.2⟩

theorem pyStrip_eq_self (l : List Char)
    (h : ∀ c ∈ l, Parsing.isWsChar c = false) : Parsing.pyStrip l = l := by
  unfold Parsing.pyStrip
  rw [dropWhile_eq_self_of_none _ l h,
    dropWhile_eq_self_of_none _ l.reverse
      (fun c hc => h c (List.mem_reverse.mp hc)),
    List.reverse_reverse]

theorem pyStrip_subset (l : List Char) (c : Char)
    (hc : c ∈ Parsing.pyStrip l) : c ∈ l := by
  unfold Parsing.pyStrip at hc
  rw [List.mem_reverse] at hc
  have h1 := (List.dropWhile_sublist (l := (l.dropWhile Parsing.isWsChar).reverse)
    Parsing.isWsChar).mem hc
  rw [List.mem_reverse] at h1
  exact (List.dropWhile_sublist Parsing.isWsChar).mem h1

theorem splitOnChar_ne_nil (sep : Char) :
    ∀ l : List Char, Parsing.splitOnChar sep l ≠ [] := by
  intro l
  cases l with
  | nil => simp [Parsing.splitOnChar]
  | cons c t =>
    simp only [Parsing.splitOnChar]
    rcases Parsing.splitOnChar sep t with _ | ⟨h, r⟩
    · by_cases hcs : c = sep <;> simp [hcs]
    · by_cases hcs : c = sep <;> simp [hcs]

theorem splitOnChar_no_sep (sep : Char) :
    ∀ l : List Char, (∀ c ∈ l, c ≠ sep) → Parsing.splitOnChar sep l = [l] := by
  intro l
  induction l with
  | nil => intro _; rfl
  | cons c t ih =>
    intro h
    have ht := ih (fun x hx => h x (by simp [hx]))
    simp only [Parsing.splitOnChar, ht]
    rw [if_neg (h c (by simp))]

theorem splitOnChar_append (sep : Char) :
    ∀ (a b : List Char), (∀ c ∈ a, c ≠ sep) →
      Parsing.splitOnChar sep (a ++ sep :: b) =
        a :: Parsing.splitOnChar sep b := by
  intro a
  induction a with
  | nil =>
    intro b _
    rcases hs : Parsing.splitOnChar sep b with _ | ⟨h, r⟩
    · exact absurd hs (splitOnChar_ne_nil sep b)
    · simp [Parsing.splitOnChar, hs]
  | cons c a ih =>
    intro b h
    have hc := h c (by simp)
    have ht := ih b (fun x hx => h x (by simp [hx]))
    rcases hs : Parsing.splitOnChar sep (a ++ sep :: b) with _ | ⟨hh, r⟩
    · exact absurd hs (splitOnChar_ne_nil sep _)
    · rw [hs] at ht
      injection ht with ht1 ht2
      subst ht1
      subst ht2
      simp [Parsing.splitOnChar, hs, hc]

theorem splitOnChar_parts_subset (sep : Char) :
    ∀ (l : List Char) (p : List Char), p ∈ Parsing.splitOnChar sep l →
      ∀ c ∈ p, c ∈ l := by
  intro l
  induction l with
  | nil =>
    intro p hp c hc
    simp [Parsing.splitOnChar] at hp
    subst hp
    simp at hc
  | cons x t ih =>
    intro p hp c hc
    rcases hs : Parsing.splitOnChar sep t with _ | ⟨h, r⟩
    · exact absurd hs (splitOnChar_ne_nil sep t)
    · simp only [Parsing.splitOnChar, hs] at hp
      by_cases hx : x = sep
      · rw [if_pos hx] at hp
        rcases List.mem_cons.mp hp with rfl | hp2
        · simp at hc
        · exact List.mem_cons_of_mem x (ih p (by rw [hs]; exact hp2) c hc)
      · rw [if_neg hx] at hp
        rcases List.mem_cons.mp hp with rfl | hp2
        · rcases List.mem_cons.mp hc with rfl | hc2
          · simp
          · exact List.mem_cons_of_mem x (ih h (by rw [hs]; simp) c hc2)
        · exact List.mem_cons_of_mem x (ih p (by rw [hs]; simp [hp2]) c hc)

theorem parsePyFloat_no_digit :
    ∀ cs : List Char, (∀ c ∈ cs, c.isDigit = false) →
      Parsing.parsePyFloat cs = none := by
  intro cs h
  by_cases hneg : cs.head? = some '-'
  · obtain ⟨c0, rest, rfl⟩ : ∃ c0 rest, cs = c0 :: rest := by
      rcases cs with _ | ⟨c0, rest⟩
      · simp at hneg
      · exact ⟨c0, rest, rfl⟩
    have hc0 : c0 = '-' := by simpa using hneg
    subst hc0
    have hrest : ∀ c ∈ rest, c.isDigit = false := fun c hc => h c (by simp [hc])
    obtain ⟨hu1, hu2⟩ := takeWhile_none Char.isDigit rest hrest
    rcases rest with _ | ⟨c1, r2⟩
    · rfl
    · simp only [List.takeWhile_cons, List.dropWhile_cons] at hu1 hu2
      by_cases hdot : c1 = '.'
      · subst hdot
        obtain ⟨hv1, hv2⟩ := takeWhile_none Char.isDigit r2
          (fun c hc => hrest c (by simp [hc]))
        simp [Parsing.parsePyFloat, hu1, hu2, hv1, hv2]
      · simp [Parsing.parsePyFloat, hu1, hu2, hdot, hrest c1 (by simp)]
  · obtain ⟨hu1, hu2⟩ := takeWhile_none Char.isDigit cs h
    rcases cs with _ | ⟨c1, r2⟩
    · rfl
    · have hc1 : ¬(c1 = '-') := by simpa using hneg
      by_cases hdot : c1 = '.'
      · subst hdot
        obtain ⟨hv1, hv2⟩ := takeWhile_none Char.isDigit r2
          (fun c hc => h c (by simp [hc]))
        simp [Parsing.parsePyFloat, hv1, hv2, hc1]
      · simp [Parsing.parsePyFloat, hdot, h c1 (by simp), hc1]

theorem digits_all (l : List Char) (h : Parsing.pyIsDigitL l = true) :
    l ≠ [] ∧ ∀ c ∈ l, c.isDigit = true := by
  unfold Parsing.pyIsDigitL at h
  rw [Bool.and_eq_true] at h
  constructor
  · intro hc
    rw [hc] at h
    simp at h
  · intro c hc
    exact List.all_eq_true.mp h.2 c hc

theorem fix_slash_digits (a b : List Char)
    (ha : Parsing.pyIsDigitL a = true) (hb : Parsing.pyIsDigitL b = true) :
    Parsing.fix_slash_number (String.mk (a ++ '/' :: b)) =
      String.mk (a ++ '.' :: b) := by
  obtain ⟨hane, hadig⟩ := digits_all a ha
  obtain ⟨hbne, hbdig⟩ := digits_all b hb
  have hnows : ∀ c ∈ a ++ '/' :: b, Parsing.isWsChar c = false := by
    intro c hc
    rcases List.mem_append.mp hc with h1 | h1
    · exact isDigit_not_ws c (hadig c h1)
    · rcases List.mem_cons.mp h1 with rfl | h2
      · decide
      · exact isDigit_not_ws c (hbdig c h2)
  have hstrip : Parsing.pyStrip (a ++ '/' :: b) = a ++ '/' :: b :=
    pyStrip_eq_self _ hnows
  have hcon : (a ++ '/' :: b).contains '/' = true := by
    rw [List.contains, List.elem_iff]
    simp
  have hsplit : Parsing.splitOnChar '/' (a ++ '/' :: b) = [a, b] := by
    rw [splitOnChar_append '/' a b (fun c hc => (isDigit_ne_special c (hadig c hc)).1),
      splitOnChar_no_sep '/' b (fun c hc => (isDigit_ne_special c (hbdig c hc)).1)]
  simp only [Parsing.fix_slash_number, String.data, hstrip, hcon, if_true,
    hsplit, ha, hb, Bool.and_self]

theorem to_float_maybe_slash (a b : List Char)
    (ha : Parsing.pyIsDigitL a = true) (hb : Parsing.pyIsDigitL b = true) :
    Parsing.to_float_maybe (String.mk (a ++ '/' :: b)) =
      some ((Parsing.digitsToNat a : ℚ) +
        (Parsing.digitsToNat b : ℚ) / (10 : ℚ) ^ b.length) := by
  obtain ⟨hane, hadig⟩ := digits_all a ha
  obtain ⟨hbne, hbdig⟩ := digits_all b hb
  have h1 := fix_slash_digits a b ha hb
  have hkeepall : ∀ c ∈ a ++ '.' :: b,
      (c.isDigit || c = '.' || c = '-') = true := by
    intro c hc
    rcases List.mem_append.mp hc with h2 | h2
    · simp [hadig c h2]
    · rcases List.mem_cons.mp h2 with rfl | h3
      · simp
      · simp [hbdig c h3]
  have hnospace : ∀ c ∈ a ++ '.' :: b, (c ≠ ' ' : Bool) = true := by
    intro c hc
    rcases List.mem_append.mp hc with h2 | h2
    · simp [(isDigit_ne_special c (hadig c h2)).2.2.1]
    · rcases List.mem_cons.mp h2 with rfl | h3
      · decide
      · simp [(isDigit_ne_special c (hbdig c h3)).2.2.1]
  have hstrip : Parsing.stripSpaces (a ++ '.' :: b) = a ++ '.' :: b :=
    List.filter_eq_self.mpr hnospace
  have hkeep : Parsing.keepNumChars (a ++ '.' :: b) = a ++ '.' :: b :=
    List.filter_eq_self.mpr hkeepall
  obtain ⟨c0, a2, rfl⟩ : ∃ c0 a2, a = c0 :: a2 := by
    rcases a with _ | ⟨c0, a2⟩
    · exact absurd rfl hane
    · exact ⟨c0, a2, rfl⟩
  have hc0 : c0.isDigit = true := hadig c0 (by simp)
  have hneg : ¬(((c0 :: a2) ++ '.' :: b).head? = some '-') := by
    simp only [List.cons_append, List.head?_cons]
    intro hcon
    injection hcon with hcon2
    exact (isDigit_ne_special c0 hc0).2.2.2 hcon2
  obtain ⟨htw1, htw2⟩ := takeWhile_append_stop Char.isDigit (c0 :: a2) '.' b
    hadig (by decide)
  obtain ⟨hb1, hb2⟩ := takeWhile_all Char.isDigit b hbdig
  unfold Parsing.to_float_maybe
  rw [h1]
  simp only [String.data, hstrip, hkeep]
  rw [if_neg (by simp)]
  unfold Parsing.parsePyFloat
  simp only [hneg, decide_eq_true_eq, decide_eq_false hneg, Bool.false_eq_true,
    if_false, htw1, htw2]
  simp [hb1, hb2]

theorem fix_slash_no_digit (s : String)
    (h : ∀ c ∈ s.data, c.isDigit = false) :
    ∀ c ∈ (Parsing.fix_slash_number s).data, c.isDigit = false := by
  intro c hc
  have hstripsub : ∀ x ∈ Parsing.pyStrip s.data, x ∈ s.data :=
    fun x hx => pyStrip_subset s.data x hx
  unfold Parsing.fix_slash_number at hc
  dsimp only at hc
  by_cases hcon : (Parsing.pyStrip s.data).contains '/' = true
  · rw [if_pos hcon] at hc
    rcases hsp : Parsing.splitOnChar '/' (Parsing.pyStrip s.data) with _ | ⟨p1, r1⟩
    · exact absurd hsp (splitOnChar_ne_nil _ _)
    · rcases r1 with _ | ⟨p2, r2⟩
      · rw [hsp] at hc
        exact h c (hstripsub c hc)
      · rcases r2 with _ | ⟨p3, r3⟩
        · rw [hsp] at hc
          dsimp only at hc
          by_cases hdig : (Parsing.pyIsDigitL p1 && Parsing.pyIsDigitL p2) = true
          · rw [Bool.and_eq_true] at hdig
            obtain ⟨hp1ne, hp1dig⟩ := digits_all p1 hdig.1
            obtain ⟨x0, p1t, rfl⟩ : ∃ x0 p1t, p1 = x0 :: p1t := by
              rcases p1 with _ | ⟨x0, p1t⟩
              · exact absurd rfl hp1ne
              · exact ⟨x0, p1t, rfl⟩
            have hx0mem : x0 ∈ Parsing.pyStrip s.data :=
              splitOnChar_parts_subset '/' _ (x0 :: p1t) (by rw [hsp]; simp) x0 (by simp)
            have hbad := h x0 (hstripsub x0 hx0mem)
            rw [hp1dig x0 (by simp)] at hbad
            cases hbad
          · rw [if_neg hdig] at hc
            exact h c (hstripsub c hc)
        · rw [hsp] at hc
          exact h c (hstripsub c hc)
  · rw [if_neg hcon] at hc
    exact h c (hstripsub c hc)

theorem to_float_maybe_no_digit (s : String)
    (h : ∀ c ∈ s.data, c.isDigit = false) :
    Parsing.to_float_maybe s = none := by
  have h2 := fix_slash_no_digit s h
  unfold Parsing.to_float_maybe
  dsimp only
  split
  · rfl
  · apply parsePyFloat_no_digit
    intro c hc
    have hc2 : c ∈ Parsing.stripSpaces (Parsing.fix_slash_number s).data :=
      List.mem_of_mem_filter hc
    exact h2 c (List.mem_of_mem_filter hc2)

/-- C8: the frame parsing of the Dist_2 controller and sensor scripts
normalizes a digits/digits token to digits.digits before float
conversion (fix_slash_number, shared verbatim by both files), converts
the normalized token to its decimal value, returns None — never an
exception — for a string with no digit at all, returns None for a channel
whose id cannot be located in the text, and parses each of the three
channels independently so that a failed channel yields a partial result
instead of a total failure. -/
theorem C8_frame_parsing :
    (∀ a b : List Char, Parsing.pyIsDigitL a = true → Parsing.pyIsDigitL b = true →
      Parsing.fix_slash_number (String.mk (a ++ '/' :: b)) =
        String.mk (a ++ '.' :: b)) ∧
    (∀ a b : List Char, Parsing.pyIsDigitL a = true → Parsing.pyIsDigitL b = true →
      Parsing.to_float_maybe (String.mk (a ++ '/' :: b)) =
        some ((Parsing.digitsToNat a : ℚ) +
          (Parsing.digitsToNat b : ℚ) / (10 : ℚ) ^ b.length)) ∧
    (∀ s : String, (∀ c ∈ s.data, c.isDigit = false) →
      Parsing.to_float_maybe s = none) ∧
    (∀ (text : List Char) (target_id : ℕ),
      Ctrl2.findSuffix (Ctrl2.idPatAt (toString target_id).data) text = none →
      Ctrl2.extract_for_id text target_id = none) ∧
    (∀ text : List Char,
      Ctrl2.parse_ec_ph_tp text =
        (Ctrl2.extract_for_id text Ctrl2.ID_EC,
         Ctrl2.extract_for_id text Ctrl2.ID_PH,
         Ctrl2.extract_for_id text Ctrl2.ID_TEMP)) := by
  refine ⟨fix_slash_digits, to_float_maybe_slash, to_float_maybe_no_digit, ?_, ?_⟩
  · intro text target_id h
    unfold Ctrl2.extract_for_id
    rw [h]
  · intro text
    rfl

/-- C8 witness: the parsing contract applied at the corrupted token
"17/10" (normalized to "17.10" and converted to 17.1), at the digit-free
string "ab" (None, not an exception), and at the empty frame, where no id
can be located so the channel value is None. -/
theorem C8_frame_parsing_witness :
    (Parsing.fix_slash_number (String.mk (['1', '7'] ++ '/' :: ['1', '0'])) =
      String.mk (['1', '7'] ++ '.' :: ['1', '0'])) ∧
    (Parsing.to_float_maybe (String.mk (['1', '7'] ++ '/' :: ['1', '0'])) =
      some ((Parsing.digitsToNat ['1', '7'] : ℚ) +
        (Parsing.digitsToNat ['1', '0'] : ℚ) / (10 : ℚ) ^ (['1', '0'] : List Char).length)) ∧
    (Parsing.to_float_maybe "ab" = none) ∧
    (Ctrl2.extract_for_id [] 30 = none) :=
  ⟨C8_frame_parsing.1 ['1', '7'] ['1', '0'] (by decide) (by decide),
   C8_frame_parsing.2.1 ['1', '7'] ['1', '0'] (by decide) (by decide),
   C8_frame_parsing.2.2.1 "ab" (by decide),
   C8_frame_parsing.2.2.2.1 [] 30 (by decide)⟩

end Cja
